import Mathlib

/-!
Shallow embedding of the Glyph terminal note application's command shell
(src/lib/commands.ts, src/hooks/useShell.ts) and its database layer
(src/lib/db.ts).  Pure data is translated directly; the asynchronous
Dexie/IndexedDB store is modelled as an explicit `Store` value threaded
through every operation, with `Store.now` standing for `Date.now()`.
React state (`useState` setters) is modelled by explicit state passing:
a dispatch returns the new store, the `setCurrentPath` invocation (if
any) and the `CommandResult`.
-/

namespace Glyph

/-! ### JavaScript string helpers -/

/-- The character class `[\w-]` used by the command-line regex
`^([\w-]+)(?:\s+(.*))?$`: ASCII word characters plus the hyphen. -/
def isWordChar (c : Char) : Bool :=
  c.isAlphanum || c == '_' || c == '-'

/-- Characters treated as whitespace by `\s` / `trim` (ASCII fragment). -/
def isJsSpace (c : Char) : Bool :=
  c == ' ' || c == '\t' || c == '\n' || c == '\r'

/-- `needle` occurs at the front of `hay` (char-list version of
`String.startsWith`). -/
def leadsChars : List Char → List Char → Bool
  | [], _ => true
  | _ :: _, [] => false
  | a :: as, b :: bs => a == b && leadsChars as bs

/-- `needle` occurs somewhere inside `hay`. -/
def containsChars (hay needle : List Char) : Bool :=
  match hay with
  | [] => leadsChars needle []
  | _ :: t => leadsChars needle hay || containsChars t needle

/-- JS `String.prototype.trim` (ASCII whitespace fragment). -/
def jsTrim (s : String) : String :=
  String.mk (((s.toList.dropWhile isJsSpace).reverse.dropWhile isJsSpace).reverse)

/-- JS `String.prototype.toLowerCase` (ASCII fragment). -/
def jsLower (s : String) : String := String.mk (s.toList.map Char.toLower)

/-- JS `String.prototype.slice(0, n)`. -/
def jsTake (s : String) (n : Nat) : String := String.mk (s.toList.take n)

/-- JS `String.prototype.padStart(n, " ")`. -/
def padStartSp (s : String) (n : Nat) : String :=
  String.mk (List.replicate (n - s.toList.length) ' ') ++ s

/-- JS `String.prototype.padEnd(n, " ")`. -/
def padEndSp (s : String) (n : Nat) : String :=
  s ++ String.mk (List.replicate (n - s.toList.length) ' ')

/-- JS `String.prototype.startsWith`. -/
def jsStartsWith (s pre : String) : Bool := leadsChars pre.toList s.toList

/-- JS regular-expression metacharacters.  A pattern avoiding all of
them is a syntactically valid regex that matches itself verbatim. -/
def isRegexMeta (c : Char) : Bool :=
  c == '\\' || c == '^' || c == '$' || c == '.' || c == '|' || c == '?' ||
  c == '*' || c == '+' || c == '(' || c == ')' || c == '[' || c == ']' ||
  c == '\x7b' || c == '\x7d'

/-- The pattern is a regex literal: no metacharacter occurs in it. -/
def regexLiteral (pattern : String) : Bool :=
  pattern.toList.all (fun c => !isRegexMeta c)

/-- Case-insensitive containment test; models
`new RegExp(pattern, "i").test(line)` exactly when
`regexLiteral pattern = true` (the regex then matches the pattern text
verbatim, so the test is a case-insensitive literal search).  For
patterns containing metacharacters the program applies full JS regex
semantics — including a `SyntaxError` on an invalid pattern, caught by
`parseAndExecute` into an error line — which this development does not
model; every grep theorem below is restricted to the literal domain. -/
def regexTestI (pattern line : String) : Bool :=
  containsChars (jsLower line).toList (jsLower pattern).toList

/-- Hexadecimal digit test for `parseInt`'s `0x` branch. -/
def isHexDigitJS (c : Char) : Bool :=
  c.isDigit || ('a' ≤ c && c ≤ 'f') || ('A' ≤ c && c ≤ 'F')

/-- JS `parseInt(s)` (radix unspecified): skip leading whitespace, an
optional sign, then a maximal run of decimal digits (a leading `0x`
switches to hexadecimal); `none` models `NaN`. -/
def parseIntJS (s : String) : Option Int :=
  let cs := s.toList.dropWhile isJsSpace
  let (neg, cs) : Bool × List Char :=
    match cs with
    | '-' :: rest => (true, rest)
    | '+' :: rest => (false, rest)
    | _ => (false, cs)
  let (digits, base) : List Char × Nat :=
    match cs with
    | '0' :: 'x' :: rest => (rest.takeWhile isHexDigitJS, 16)
    | '0' :: 'X' :: rest => (rest.takeWhile isHexDigitJS, 16)
    | _ => (cs.takeWhile Char.isDigit, 10)
  if digits.isEmpty then none
  else
    let v : Nat := digits.foldl (fun acc c =>
      acc * base + (if c.isDigit then c.toNat - '0'.toNat
        else if c.toNat ≥ 'a'.toNat then c.toNat - 'a'.toNat + 10
        else c.toNat - 'A'.toNat + 10)) 0
    some (if neg then -(v : Int) else (v : Int))

/-- JS `parseFloat(s)` restricted to plain decimal literals
(sign, digits, optional fractional part); exponents are not modelled
(no caller in the shell passes one).  `none` models `NaN`. -/
def parseFloatJS (s : String) : Option ℚ :=
  let cs := s.toList.dropWhile isJsSpace
  let (neg, cs) : Bool × List Char :=
    match cs with
    | '-' :: rest => (true, rest)
    | '+' :: rest => (false, rest)
    | _ => (false, cs)
  let intPart := cs.takeWhile Char.isDigit
  let rest := cs.dropWhile Char.isDigit
  let fracPart : List Char :=
    match rest with
    | '.' :: r => r.takeWhile Char.isDigit
    | _ => []
  if intPart.isEmpty && fracPart.isEmpty then none
  else
    let iv : Nat := intPart.foldl (fun acc c => acc * 10 + (c.toNat - '0'.toNat)) 0
    let fv : Nat := fracPart.foldl (fun acc c => acc * 10 + (c.toNat - '0'.toNat)) 0
    let q : ℚ := (iv : ℚ) + (fv : ℚ) / ((10 : ℚ) ^ fracPart.length)
    some (if neg then -q else q)

/-- Split a string into whitespace-separated parts, as
`str.split(/\s+/)` does on an already-trimmed string; the empty string
yields `[""]` (JS behaviour). -/
def splitWsAux : List Char → List Char → List String
  | [], cur => [String.mk cur.reverse]
  | c :: cs, cur =>
    if isJsSpace c then String.mk cur.reverse :: splitWsAux cs []
    else splitWsAux cs (c :: cur)

def splitWs (s : String) : List String :=
  if s = "" then [""]
  else (splitWsAux s.toList []).filter (fun p => p ≠ "")

/-- JS `str.split(c)` for a single-character separator. -/
def splitOnCharAux (sep : Char) : List Char → List Char → List String
  | [], cur => [String.mk cur.reverse]
  | c :: cs, cur =>
    if c == sep then String.mk cur.reverse :: splitOnCharAux sep cs []
    else splitOnCharAux sep cs (c :: cur)

def splitOnChar (sep : Char) (s : String) : List String :=
  splitOnCharAux sep s.toList []

/-- Stable sort by a boolean comparator (insertion sort; agrees with
the ES2019 stable `Array.prototype.sort` for every total comparator
the shell uses). -/
def insertLe (le : α → α → Bool) (x : α) : List α → List α
  | [] => [x]
  | y :: ys => if le y x then y :: insertLe le x ys else x :: y :: ys

def stableSortLe (le : α → α → Bool) (l : List α) : List α :=
  l.foldl (fun acc x => insertLe le x acc) []

/-- `String.intercalate`, structurally. -/
def interStr (sep : String) : List String → String
  | [] => ""
  | [x] => x
  | x :: y :: xs => x ++ sep ++ interStr sep (y :: xs)

/-- Decimal digit grouping used by JS `Number.prototype.toLocaleString`
("1234567" becomes "1,234,567"). -/
def groupDigitsAux : Nat → List Char → List Char
  | _, [] => []
  | 0, c :: cs => ',' :: c :: groupDigitsAux 2 cs
  | Nat.succ k, c :: cs => c :: groupDigitsAux k cs

def groupDigits (n : Nat) : String :=
  String.mk ((groupDigitsAux 3 (toString n).toList.reverse).reverse)

/-! ### Data model (src/lib/db.ts) -/

/-- `Note` record.  `pinned?: boolean` is optional in TS; `undefined`
and `false` are interchangeable under JS truthiness, so it is a `Bool`.
Ids are JS numbers holding integers. -/
structure Note where
  id : Int
  title : String
  body : String
  tags : List String
  createdAt : Nat
  updatedAt : Nat
  deleted : Bool
  deletedAt : Option Nat
  pinned : Bool
  parentId : Option Int
deriving DecidableEq

structure Folder where
  id : Int
  name : String
  parentId : Option Int
  createdAt : Nat
deriving DecidableEq

structure DeletedNote where
  id : Int
  noteId : Int
  title : String
  body : String
  tags : List String
  createdAt : Nat
  updatedAt : Nat
  deletedAt : Nat
deriving DecidableEq

/-- The IndexedDB database, as an explicit value.  Lists are kept in
primary-key (`id`) order, which is the order Dexie's `toArray` and
equal-key index scans return; auto-increment counters start at 1.
`now` models `Date.now()` for the current tick. -/
structure Store where
  notes : List Note
  folders : List Folder
  recentlyDeleted : List DeletedNote
  config : List (String × String)
  nextNoteId : Int
  nextFolderId : Int
  nextDeletedId : Int
  now : Nat
deriving DecidableEq

def emptyStore : Store :=
  { notes := [], folders := [], recentlyDeleted := [], config := []
    nextNoteId := 1, nextFolderId := 1, nextDeletedId := 1, now := 0 }

/-- JS truthiness of an optional numeric id (`!f.parentId` is true for
`undefined`, `null` and `0`). -/
def truthyId : Option Int → Bool
  | none => false
  | some n => n != 0

/-- `DEFAULT_CONFIG` from db.ts. -/
def DEFAULT_CONFIG : List (String × String) :=
  [("theme", "crt"), ("scanlines", "true"), ("autosave", "true"), ("dateFormat", "short")]

/-- `sanitizeText`: escape `<` and `>` to HTML entities. -/
def sanitizeText (text : String) : String :=
  String.join (text.toList.map (fun c =>
    if c == '<' then "&lt;" else if c == '>' then "&gt;" else String.mk [c]))

/-! ### Database operations (src/lib/db.ts, current version with
folders and pinning) -/

def getConfig (key : String) (s : Store) : String :=
  match s.config.find? (fun kv => kv.1 == key) with
  | some kv => kv.2
  | none =>
    match DEFAULT_CONFIG.find? (fun kv => kv.1 == key) with
    | some kv => kv.2
    | none => ""

def setConfig (key value : String) (s : Store) : Store :=
  if (s.config.find? (fun kv => kv.1 == key)).isSome then
    { s with config := s.config.map (fun kv => if kv.1 == key then (kv.1, value) else kv) }
  else
    { s with config := s.config ++ [(key, value)] }

def getAllConfig (s : Store) : List (String × String) :=
  -- `{...DEFAULT_CONFIG}` then overwritten by each stored row
  s.config.foldl
    (fun acc kv =>
      if (acc.find? (fun e => e.1 == kv.1)).isSome then
        acc.map (fun e => if e.1 == kv.1 then kv else e)
      else acc ++ [kv])
    DEFAULT_CONFIG

/-- `createFolder`; the `throw` on an empty sanitized name is modelled
by `none`. -/
def createFolder (name : String) (parentId : Option Int) (s : Store) :
    Option (Store × Folder) :=
  let safeName := sanitizeText (jsTake (jsTrim name) 100)
  if safeName = "" then none
  else
    let folder : Folder :=
      { id := s.nextFolderId, name := safeName, parentId := parentId, createdAt := s.now }
    some ({ s with folders := s.folders ++ [folder], nextFolderId := s.nextFolderId + 1 },
      folder)

def getFolder (id : Option Int) (s : Store) : Option Folder :=
  match id with
  | none => none
  | some i => s.folders.find? (fun f => f.id == i)

/-- `getFolderContents`: root means a parent reference that is falsy. -/
def getFolderContents (parentId : Option Int) (s : Store) :
    List Note × List Folder :=
  match parentId with
  | none =>
    ((s.notes.filter (fun n => !n.deleted)).filter (fun n => !truthyId n.parentId),
     s.folders.filter (fun f => !truthyId f.parentId))
  | some pid =>
    (s.notes.filter (fun n => n.parentId == some pid && !n.deleted),
     s.folders.filter (fun f => f.parentId == some pid))

/-- `createNote`; the `throw new Error("Invalid title")` on a falsy
title is modelled by `none`. -/
def createNote (title body : String) (tags : List String) (parentId : Option Int)
    (s : Store) : Option (Store × Note) :=
  if title = "" then none
  else
    let safeTitle := sanitizeText (jsTake title 500)
    let safeBody := sanitizeText body
    let safeTags := (tags.map (fun t => sanitizeText (jsTake t 100))).take 50
    let note : Note :=
      { id := s.nextNoteId, title := safeTitle, body := safeBody, tags := safeTags
        createdAt := s.now, updatedAt := s.now, deleted := false, deletedAt := none
        pinned := false, parentId := parentId }
    some ({ s with notes := s.notes ++ [note], nextNoteId := s.nextNoteId + 1 }, note)

def getNote (id : Int) (s : Store) : Option Note :=
  s.notes.find? (fun n => n.id == id)

/-- Apply an in-place Dexie `db.notes.update(id, patch)`. -/
def updateNotes (id : Int) (patch : Note → Note) (s : Store) : Store :=
  { s with notes := s.notes.map (fun n => if n.id == id then patch n else n) }

/-- `updateNote` restricted to the one field the command layer patches
through it (`rename` sets `title`); also bumps `updatedAt`. -/
def updateNoteTitle (id : Int) (title : String) (s : Store) : Store :=
  updateNotes id
    (fun n => { n with title := sanitizeText (jsTake title 500), updatedAt := s.now }) s

/-- `togglePin`: flips the pin flag (without touching `updatedAt`) and
returns the new state, or `false` when the note does not exist. -/
def togglePin (id : Int) (s : Store) : Store × Bool :=
  match getNote id s with
  | none => (s, false)
  | some note =>
    let newPinnedState := !note.pinned
    (updateNotes id (fun n => { n with pinned := newPinnedState }) s, newPinnedState)

/-- `deleteNote` (soft delete): snapshots the note into
`recentlyDeleted` and marks it deleted. -/
def deleteNote (id : Int) (s : Store) : Store × Bool × Option DeletedNote :=
  match getNote id s with
  | none => (s, false, none)
  | some note =>
    if note.deleted then (s, false, none)
    else
      let dn : DeletedNote :=
        { id := s.nextDeletedId, noteId := id, title := note.title, body := note.body
          tags := note.tags, createdAt := note.createdAt, updatedAt := note.updatedAt
          deletedAt := s.now }
      let s1 := { s with recentlyDeleted := s.recentlyDeleted ++ [dn]
                         nextDeletedId := s.nextDeletedId + 1 }
      let s2 := updateNotes id
        (fun n => { n with deleted := true, deletedAt := some s.now, updatedAt := s.now }) s1
      (s2, true, some dn)

/-- `undoDelete`: clears the trash entry and un-deletes the note. -/
def undoDelete (noteId : Int) (s : Store) : Store × Bool :=
  match getNote noteId s with
  | none => (s, false)
  | some note =>
    if !note.deleted then (s, false)
    else
      let s1 := { s with recentlyDeleted :=
        s.recentlyDeleted.filter (fun dn => !(dn.noteId == noteId)) }
      let s2 := updateNotes noteId
        (fun n => { n with deleted := false, deletedAt := none, updatedAt := s.now }) s1
      (s2, true)

/-- `getRecentlyDeleted`: `orderBy("deletedAt").reverse()` — ascending
index order (stable on the id-ordered table) then reversed. -/
def getRecentlyDeleted (s : Store) : List DeletedNote :=
  (stableSortLe (fun a b => a.deletedAt ≤ b.deletedAt) s.recentlyDeleted).reverse

def purgeNote (noteId : Int) (s : Store) : Store × Bool :=
  ({ s with recentlyDeleted := s.recentlyDeleted.filter (fun dn => !(dn.noteId == noteId))
            notes := s.notes.filter (fun n => !(n.id == noteId)) }, true)

def listNotes (s : Store) : List Note :=
  s.notes.filter (fun n => !n.deleted)

def searchNotes (query : String) (s : Store) : List Note :=
  let lowerQuery := jsLower query
  (s.notes.filter (fun n => !n.deleted)).filter (fun note =>
    containsChars (jsLower note.title).toList lowerQuery.toList ||
    containsChars (jsLower note.body).toList lowerQuery.toList ||
    note.tags.any (fun tag => containsChars (jsLower tag).toList lowerQuery.toList))

def getNotesByTag (tag : String) (s : Store) : List Note :=
  s.notes.filter (fun n => n.tags.contains tag && !n.deleted)

/-- `getAllTags`: counts per tag in first-seen order (JS `Map`
preserves insertion order), then a stable sort by count descending. -/
def getAllTags (s : Store) : List (String × Nat) :=
  let notes := s.notes.filter (fun n => !n.deleted)
  let counts := notes.foldl
    (fun acc note => note.tags.foldl
      (fun acc tag =>
        if (acc.find? (fun e => e.1 == tag)).isSome then
          acc.map (fun e => if e.1 == tag then (e.1, e.2 + 1) else e)
        else acc ++ [(tag, 1)])
      acc)
    []
  stableSortLe (fun a b => b.2 ≤ a.2) counts

/-- Models `new Date().toISOString().split("T")[0]` as an abstract
rendering of the tick; the concrete calendar arithmetic is irrelevant
to every claim, only that it is a function of `now`. -/
def isoDateStr (t : Nat) : String := "1970-" ++ toString t

def getTodayNote (s : Store) : Option Note :=
  let title := "Daily: " ++ isoDateStr s.now
  ((s.notes.filter (fun n => !n.deleted && n.title == title))).head?

def createOrGetTodayNote (s : Store) : Option (Store × Note) :=
  match getTodayNote s with
  | some n => some (s, n)
  | none => createNote ("Daily: " ++ isoDateStr s.now) "" ["daily"] none s

def getNoteTitles (s : Store) : List (Int × String) :=
  (s.notes.filter (fun n => !n.deleted)).map (fun n => (n.id, n.title))

/-! ### Shell output model (src/lib/commands.ts, current version) -/

inductive LineType
  | prompt | output | error | warning | info | success | dim | markdown | highlight
deriving DecidableEq

inductive OutputAction
  | openId (id : Int)
  | cdPath (path : String)
  | run (command : String)
deriving DecidableEq

structure OutputLine where
  type : LineType
  content : String
  timestamp : Option Nat := none
  action : Option OutputAction := none
deriving DecidableEq

structure ShellContext where
  currentPath : Option Int
  pathString : String
  stdin : Option (List String)
deriving DecidableEq

structure CommandResult where
  output : List OutputLine
  openEditor : Option (Note × Bool) := none
  shouldClear : Bool := false
  triggerExport : Bool := false
  triggerImport : Bool := false
  pendingUndo : Option (Int × String) := none
deriving DecidableEq

/-- The effect of a dispatch: new store, the argument of the
`setCurrentPath` call if the handler made one, and the result. -/
structure DispatchOut where
  store : Store
  pathSet : Option (Option Int) := none
  result : CommandResult
deriving DecidableEq

structure CommandDef where
  usage : String
  desc : String
  examples : List String
  category : String
  aliases : List String
deriving DecidableEq

/-- `AVAILABLE_THEMES` (src/hooks/useConfig.ts). -/
def AVAILABLE_THEMES : List String :=
  ["crt", "amber", "mono", "matrix", "solarized", "dracula", "nord", "cyberpunk"]

/-- `COMMAND_DEFINITIONS`, in declaration order (JS object iteration
order for string keys). -/
def COMMAND_DEFINITIONS : List (String × CommandDef) :=
  [
    ("new", { usage := "new \"title\"", desc := "Create a new note", examples := ["new \"My Ideas\"", "new project-notes"], category := "notes", aliases := ["create", "add", "touch"] }),
    ("mkdir", { usage := "mkdir <name>", desc := "Create a new directory", examples := ["mkdir projects", "mkdir \"my stuff\""], category := "item", aliases := ["md"] }),
    ("cd", { usage := "cd <path>", desc := "Change directory", examples := ["cd projects", "cd ..", "cd ~"], category := "item", aliases := ["chdir"] }),
    ("pwd", { usage := "pwd", desc := "Print working directory", examples := ["pwd"], category := "item", aliases := [] }),
    ("list", { usage := "list", desc := "List directory contents", examples := ["list", "ls"], category := "item", aliases := ["ls", "dir", "ll"] }),
    ("open", { usage := "open <id|title>", desc := "View a note", examples := ["open 1", "open \"My Ideas\""], category := "notes", aliases := ["view", "show"] }),
    ("edit", { usage := "edit <id>", desc := "Edit a note", examples := ["edit 1"], category := "notes", aliases := ["e"] }),
    ("delete", { usage := "delete <id>", desc := "Delete a note (with undo)", examples := ["delete 1"], category := "notes", aliases := ["rm", "remove"] }),
    ("restore", { usage := "restore <id>", desc := "Restore a deleted note", examples := ["restore 1"], category := "notes", aliases := ["undo", "undelete"] }),
    ("trash", { usage := "trash", desc := "List recently deleted notes", examples := ["trash"], category := "notes", aliases := ["deleted"] }),
    ("pin", { usage := "pin <id>", desc := "Pin a note to the top", examples := ["pin 1"], category := "notes", aliases := ["star", "favorite"] }),
    ("unpin", { usage := "unpin <id>", desc := "Unpin a note", examples := ["unpin 1"], category := "notes", aliases := ["unstar"] }),
    ("rename", { usage := "rename <id> \"new title\"", desc := "Rename a note", examples := ["rename 1 \"New Title\""], category := "notes", aliases := ["mv"] }),
    ("purge", { usage := "purge <id>", desc := "Permanently delete from trash", examples := ["purge 1"], category := "notes", aliases := [] }),
    ("search", { usage := "search <query>", desc := "Search notes", examples := ["search javascript", "search \"my idea\""], category := "search", aliases := ["find"] }),
    ("grep", { usage := "grep <pattern>", desc := "Filter output", examples := ["list | grep \"work\"", "list | grep #1"], category := "item", aliases := ["filter"] }),
    ("tags", { usage := "tags [name]", desc := "List tags or filter by tag", examples := ["tags", "tags work"], category := "search", aliases := [] }),
    ("today", { usage := "today", desc := "Open today's daily note", examples := ["today"], category := "daily", aliases := ["daily"] }),
    ("export", { usage := "export", desc := "Download notes as JSON", examples := ["export"], category := "data", aliases := ["backup"] }),
    ("import", { usage := "import", desc := "Import notes from JSON", examples := ["import"], category := "data", aliases := [] }),
    ("config", { usage := "config [key] [value]", desc := "View or set configuration", examples := ["config", "config theme amber", "config scanlines false"], category := "config", aliases := ["set", "settings"] }),
    ("clear", { usage := "clear", desc := "Clear terminal", examples := ["clear"], category := "other", aliases := ["cls"] }),
    ("version", { usage := "version", desc := "Show version info", examples := ["version"], category := "other", aliases := ["v"] }),
    ("stats", { usage := "stats", desc := "Show note statistics", examples := ["stats"], category := "other", aliases := ["info"] }),
    ("help", { usage := "help [command]", desc := "Show help", examples := ["help", "help edit", "help search"], category := "other", aliases := ["?", "h"] })
  ]

def commandNames : List String := COMMAND_DEFINITIONS.map (fun e => e.1)

/-- `resolveAlias`: first registry entry whose name or alias set
matches, else the token unchanged. -/
def resolveAlias (cmd : String) : String :=
  match COMMAND_DEFINITIONS.find? (fun e => e.1 == cmd || e.2.aliases.contains cmd) with
  | some e => e.1
  | none => cmd

/-- The simplified distance of `findSimilarCommand`: position-wise
mismatches over the common length plus the length difference. -/
def simpleDist (cmd input : String) : Nat :=
  let a := cmd.toList
  let b := input.toList
  let minLen := Nat.min a.length b.length
  let maxLen := Nat.max a.length b.length
  ((List.zip a b).filter (fun p => !(p.1 == p.2))).length + (maxLen - minLen)

/-- The loop's containment test: `cmd.startsWith(lowerInput) ||
lowerInput.startsWith(cmd)`. -/
def isAffix (t c : String) : Bool := jsStartsWith c t || jsStartsWith t c

/-- `d < bestScore` where `none` is the initial `Infinity`. -/
def ltInfB (d : Nat) : Option Nat → Bool
  | none => true
  | some b => d < b

/-- The scanning loop of `findSimilarCommand`: return on a prefix
containment in either direction, otherwise keep the best
(score < bestScore and ≤ 2) candidate. -/
def simLoop (t : String) : List String → Option Nat → String → Option String
  | [], _, bm => if bm = "" then none else some bm
  | c :: cs, bs, bm =>
    if isAffix t c then some c
    else
      let d := simpleDist c t
      if ltInfB d bs && d ≤ 2 then
        simLoop t cs (some d) c
      else
        simLoop t cs bs bm

/-- `findSimilarCommand` (commands.ts:1395). -/
def findSimilarCommand (input : String) : Option String :=
  let lowerInput := jsLower input
  match COMMAND_DEFINITIONS.find? (fun e => e.2.aliases.contains lowerInput) with
  | some e => some e.1
  | none => simLoop lowerInput commandNames none ""

/-- Models the locale- and timezone-dependent
`Date.toLocaleString("en-US", ...)` rendering; only its dependence on
the timestamp matters to the shell, never the concrete text. -/
def formatDate (t : Nat) : String := "@" ++ toString t

/-- `formatNoteRow` (without a highlight query). -/
def formatNoteRow (note : Note) : String :=
  let id := padStartSp (toString note.id) 4
  let title :=
    if note.title.toList.length > 40 then jsTake note.title 37 ++ "..."
    else padEndSp note.title 40
  let tags := if note.tags.length > 0 then "[" ++ interStr ", " note.tags ++ "]" else ""
  let pinned := if note.pinned then "📌 " else ""
  pinned ++ "#" ++ id ++ "  " ++ title ++ "  " ++ tags

/-- `formatNoteRow` with a highlight query (used by `search`). -/
def formatNoteRowHl (note : Note) (highlightQuery : String) : String :=
  let id := padStartSp (toString note.id) 4
  let title0 :=
    if note.title.toList.length > 40 then jsTake note.title 37 ++ "..."
    else padEndSp note.title 40
  let lowerTitle := (jsLower title0).toList
  let lowerQuery := (jsLower highlightQuery).toList
  let title :=
    match (List.range (lowerTitle.length + 1)).find?
        (fun i => leadsChars lowerQuery (lowerTitle.drop i)) with
    | some idx =>
      let t := title0.toList
      let q := highlightQuery.toList.length
      String.mk (t.take idx) ++ "»" ++ String.mk ((t.drop idx).take q) ++ "«" ++
        String.mk (t.drop (idx + q))
    | none => title0
  let tags := if note.tags.length > 0 then "[" ++ interStr ", " note.tags ++ "]" else ""
  let pinned := if note.pinned then "📌 " else ""
  pinned ++ "#" ++ id ++ "  " ++ title ++ "  " ++ tags

/-! ### Handlers (src/lib/commands.ts) -/

/-- Plain output line. -/
def ol (t : LineType) (c : String) : OutputLine := ⟨t, c, none, none⟩

/-- Output line carrying an activation action. -/
def olA (t : LineType) (c : String) (a : OutputAction) : OutputLine := ⟨t, c, none, some a⟩

/-- The title-argument regex `^"([^"]+)"$|^'([^']+)'$|^(.+)$` shared by
`new`/`mkdir` (and the title part of `rename`): a fully
double-quoted, fully single-quoted, or bare single-line remainder, in
that priority order.  `$` (no `m` flag) also matches just before one
final newline; `.` (no `s` flag) matches neither `\n` nor `\r`. -/
def matchTitleArg (argsStr : String) : Option String :=
  let cs0 := argsStr.toList
  let cs := if cs0.getLast? == some '\n' then cs0.dropLast else cs0
  if cs.length ≥ 3 && cs.head? == some '"' && cs.getLast? == some '"' &&
      (cs.drop 1).dropLast.all (fun c => c != '"') then
    some (String.mk ((cs.drop 1).dropLast))
  else if cs.length ≥ 3 && cs.head? == some '\'' && cs.getLast? == some '\'' &&
      (cs.drop 1).dropLast.all (fun c => c != '\'') then
    some (String.mk ((cs.drop 1).dropLast))
  else if !cs.isEmpty && cs.all (fun c => c != '\n' && c != '\r') then
    some (String.mk cs)
  else none

/-- `argsStr.replace(/^["']|["']$/g, "")`: strip at most one quote
character from each edge. -/
def stripEdgeQuotes (s : String) : String :=
  let cs := s.toList
  let cs1 := match cs with
    | '"' :: rest => rest
    | '\'' :: rest => rest
    | l => l
  let cs2 :=
    if cs1.getLast? == some '"' || cs1.getLast? == some '\'' then cs1.dropLast else cs1
  String.mk cs2

def hasError (r : CommandResult) : Bool :=
  r.output.any (fun l => l.type == LineType.error)

def showHelp (specificCommand : String) : CommandResult :=
  if specificCommand ≠ "" then
    let cmd := resolveAlias (jsLower specificCommand)
    match COMMAND_DEFINITIONS.find? (fun e => e.1 == cmd) with
    | none =>
      { output := [ol .error ("Unknown command: " ++ specificCommand),
                   ol .dim "Type \"help\" to see all commands"] }
    | some e =>
      let d := e.2
      { output :=
          [ol .info ("─── Help: " ++ cmd ++ " ───"), ol .output "",
           ol .success "Usage:", ol .output ("  " ++ d.usage), ol .output "",
           ol .success "Description:", ol .output ("  " ++ d.desc), ol .output "",
           ol .success "Examples:"] ++
          d.examples.map (fun ex => ol .dim ("  $ " ++ ex)) ++
          (if d.aliases.length > 0 then
            [ol .output "", ol .success "Aliases:",
             ol .dim ("  " ++ interStr ", " d.aliases)]
          else []) }
  else
    let categories : List (String × String) :=
      [("notes", "NOTES"), ("search", "SEARCH"), ("daily", "DAILY"),
       ("data", "DATA"), ("config", "CONFIG"), ("other", "OTHER")]
    let header : List OutputLine :=
      [ol .info "╭─────────────────────────────────────────────╮",
       ol .info "│          GLYPH v2.1 - COMMANDS                │",
       ol .info "╰─────────────────────────────────────────────╯",
       ol .output ""]
    let body : List OutputLine := categories.foldl (fun acc cat =>
      let cmds := COMMAND_DEFINITIONS.filter (fun e => e.2.category == cat.1)
      if cmds.length == 0 then acc
      else acc ++ [ol .success cat.2] ++
        cmds.map (fun e =>
          let aliases := if e.2.aliases.length > 0 then
            " (" ++ interStr ", " e.2.aliases ++ ")" else ""
          ol .output ("  " ++ padEndSp e.2.usage 22 ++ " " ++ e.2.desc ++ aliases)) ++
        [ol .output ""]) header
    { output := body ++
        [ol .dim "Tip: Use \"help <command>\" for detailed help on a command",
         ol .dim "Example: help search"] }

def handleNew (argsStr : String) (ctx : ShellContext) (s : Store) :
    Store × CommandResult :=
  let title := (matchTitleArg argsStr).getD "Untitled"
  if jsTrim title = "" then
    (s, { output := [ol .error "Missing title",
                     ol .dim "Usage: new \"My Note Title\"",
                     ol .dim "Example: new \"Project Ideas\""] })
  else
    match createNote (jsTrim title) "" [] ctx.currentPath s with
    | some (s', note) =>
      (s', { output := [ol .success ("✓ Note created (id: " ++ toString note.id ++ ")"),
                        ol .dim "  Opening editor..."]
             openEditor := some (note, true) })
    | none =>
      -- unreachable (`title.trim()` is non-empty here); the thrown
      -- "Invalid title" would be caught by parseAndExecute's catch-all
      (s, { output := [ol .error "Error: Invalid title"] })

def listNoteLe (a b : Note) : Bool :=
  if a.pinned != b.pinned then a.pinned else b.updatedAt ≤ a.updatedAt

def handleList (ctx : ShellContext) (s : Store) : CommandResult :=
  let notes := (getFolderContents ctx.currentPath s).1
  let folders := (getFolderContents ctx.currentPath s).2
  if notes.length == 0 && folders.length == 0 then
    { output := [ol .dim "(empty)"] }
  else
    let folderLines := folders.map (fun f =>
      olA .info (f.name ++ "/") (OutputAction.cdPath f.name))
    let noteLines := (stableSortLe listNoteLe notes).map (fun n =>
      olA .output (formatNoteRow n) (OutputAction.openId n.id))
    { output := folderLines ++ noteLines ++
        [ol .dim ("Total: " ++ toString (folders.length + notes.length) ++ " item(s)")] }

def handleMkdir (argsStr : String) (ctx : ShellContext) (s : Store) :
    Store × CommandResult :=
  match matchTitleArg argsStr with
  | none => (s, { output := [ol .error "Missing directory name"] })
  | some name =>
    if jsTrim name = "" then
      (s, { output := [ol .error "Missing directory name"] })
    else
      match createFolder (jsTrim name) ctx.currentPath s with
      | some (s', _) =>
        (s', { output := [ol .success ("✓ Directory \"" ++ jsTrim name ++ "\" created")] })
      | none =>
        -- unreachable: the trimmed name is non-empty, so createFolder succeeds
        (s, { output := [ol .error "Failed to create directory: Error: Invalid folder name"] })

def handleCd (argsStr : String) (ctx : ShellContext) (s : Store) :
    Option (Option Int) × CommandResult :=
  let path := jsTrim argsStr
  if path = "" || path = "~" || path = "/" then
    (some none, { output := [] })
  else if path = ".." then
    match ctx.currentPath with
    | none => (none, { output := [] })   -- already at root: no setCurrentPath call
    | some cp =>
      match getFolder (some cp) s with
      | some current => (some current.parentId, { output := [] })
      | none => (some none, { output := [] })  -- `current?.parentId` is undefined
  else
    match (getFolderContents ctx.currentPath s).2.find?
        (fun f => jsLower f.name == jsLower path) with
    | some target => (some (some target.id), { output := [] })
    | none => (none, { output := [ol .error ("cd: " ++ path ++ ": No such directory")] })

def showNote (note : Note) : CommandResult :=
  { output :=
      [ol .info ("╭─── #" ++ toString note.id ++ ": " ++ note.title ++ " ───╮"),
       ol .output "", ol .markdown note.body, ol .output "",
       ol .dim ("Created: " ++ formatDate note.createdAt),
       ol .dim ("Updated: " ++ formatDate note.updatedAt)] ++
      (if note.tags.length > 0 then
        [ol .dim ("Tags: " ++ interStr ", " note.tags)] else []) }

def handleOpen (argsStr : String) (s : Store) : CommandResult :=
  match parseIntJS argsStr with
  | some id =>
    match getNote id s with
    | some note =>
      if note.deleted then
        { output := [ol .error ("Note #" ++ toString id ++ " not found")] }
      else showNote note
    | none => { output := [ol .error ("Note #" ++ toString id ++ " not found")] }
  | none =>
    let query := jsTrim (stripEdgeQuotes argsStr)
    if query = "" then
      { output := [ol .error "Missing note ID or title",
                   ol .dim "Usage: open <id> or open \"title\"",
                   ol .dim "Example: open 1"] }
    else
      let titles := getNoteTitles s
      let found := titles.filter (fun t =>
        containsChars (jsLower t.2).toList (jsLower query).toList)
      match found with
      | [] => { output := [ol .error ("No note found matching \"" ++ query ++ "\"")] }
      | m :: rest =>
        match (if rest.isEmpty then getNote m.1 s else none) with
        | some note => showNote note
        | none =>
          { output :=
              [ol .warning ("Multiple notes match \"" ++ query ++ "\":"), ol .output ""] ++
              (found.take 5).map (fun mm =>
                ol .output ("  #" ++ toString mm.1 ++ "  " ++ mm.2)) ++
              [ol .output "", ol .dim "Use the note ID to open: open <id>"] }

def handleEdit (argsStr : String) (s : Store) : CommandResult :=
  match parseIntJS argsStr with
  | none =>
    { output := [ol .error "Missing note ID", ol .dim "Usage: edit <id>",
                 ol .dim "Example: edit 1"] }
  | some id =>
    match getNote id s with
    | some note =>
      if note.deleted then
        { output := [ol .error ("Note #" ++ toString id ++ " not found")] }
      else
        { output := [ol .info ("Opening editor for #" ++ toString id ++ ": " ++
            note.title ++ "...")]
          openEditor := some (note, false) }
    | none => { output := [ol .error ("Note #" ++ toString id ++ " not found")] }

def handleDelete (argsStr : String) (s : Store) : Store × CommandResult :=
  match parseIntJS argsStr with
  | none =>
    (s, { output := [ol .error "Missing note ID", ol .dim "Usage: delete <id>",
                     ol .dim "Example: delete 1"] })
  | some id =>
    let s' := (deleteNote id s).1
    let success := (deleteNote id s).2.1
    let deletedNote := (deleteNote id s).2.2
    if !success then
      (s', { output := [ol .error ("Note #" ++ toString id ++ " not found or already deleted")] })
    else
      let title := match deletedNote with | some dn => dn.title | none => ""
      (s', { output :=
              [ol .warning ("✓ Note #" ++ toString id ++ " \"" ++ title ++ "\" deleted"),
               ol .info ("  Type \"restore " ++ toString id ++ "\" to undo")]
             pendingUndo := some (id, title) })

def handleRestore (argsStr : String) (s : Store) : Store × CommandResult :=
  match parseIntJS argsStr with
  | none =>
    (s, { output := [ol .error "Missing note ID", ol .dim "Usage: restore <id>",
                     ol .dim "Tip: Use \"trash\" to see deleted notes"] })
  | some id =>
    let s' := (undoDelete id s).1
    let success := (undoDelete id s).2
    if !success then
      (s', { output := [ol .error ("Note #" ++ toString id ++ " not found in trash")] })
    else
      (s', { output := [ol .success ("✓ Note #" ++ toString id ++ " restored")] })

def handleTrash (s : Store) : CommandResult :=
  let deleted := getRecentlyDeleted s
  if deleted.length == 0 then { output := [ol .dim "Trash is empty."] }
  else
    { output :=
        [ol .info ("─── Trash (" ++ toString deleted.length ++ " notes) ───"),
         ol .output ""] ++
        deleted.map (fun dn =>
          ol .warning ("  #" ++ toString dn.noteId ++ "  " ++ dn.title ++
            "  [deleted " ++ formatDate dn.deletedAt ++ "]")) ++
        [ol .output "", ol .dim "Use \"restore <id>\" to recover a note"] }

def handleSearch (argsStr : String) (s : Store) : CommandResult :=
  let query := jsTrim argsStr
  if query = "" then
    { output := [ol .error "Missing search query", ol .dim "Usage: search <query>",
                 ol .dim "Example: search javascript"] }
  else
    let notes := searchNotes query s
    if notes.length == 0 then
      { output := [ol .dim ("No results for \"" ++ query ++ "\""), ol .output "",
                   ol .dim "Search looks in titles, body, and tags"] }
    else
      { output :=
          [ol .info ("─── Search: \"" ++ query ++ "\" (" ++ toString notes.length ++
             " results) ───"), ol .output ""] ++
          notes.map (fun note => ol .output (formatNoteRowHl note query)) ++
          [ol .output "", ol .dim "Matches marked with » «"] }

def handleTags (argsStr : String) (s : Store) : CommandResult :=
  if jsTrim argsStr ≠ "" then
    let notes := getNotesByTag (jsTrim argsStr) s
    if notes.length == 0 then
      { output := [ol .dim ("No notes with tag \"" ++ argsStr ++ "\"")] }
    else
      { output :=
          [ol .info ("─── Tag: " ++ argsStr ++ " (" ++ toString notes.length ++
             " notes) ───"), ol .output ""] ++
          notes.map (fun note => ol .output (formatNoteRow note)) }
  else
    let tags := getAllTags s
    if tags.length == 0 then
      { output := [ol .dim "No tags yet.",
                   ol .dim "Add tags when editing notes with Ctrl+T"] }
    else
      { output :=
          [ol .info "─── All Tags ───", ol .output ""] ++
          tags.map (fun tc => ol .output ("  " ++ tc.1 ++ " (" ++ toString tc.2 ++ ")")) ++
          [ol .output "", ol .dim "Use \"tags <name>\" to filter by tag"] }

def handleToday (s : Store) : Store × CommandResult :=
  match createOrGetTodayNote s with
  | some (s', note) =>
    (s', { output := [ol .info ("Opening today's note (#" ++ toString note.id ++ ")...")]
           openEditor := some (note, false) })
  | none => (s, { output := [ol .error "Error: Invalid title"] })  -- unreachable

def handleImport : CommandResult :=
  { output := [ol .info "Select a JSON file to import...",
               ol .dim "Note: Duplicate titles will be renamed automatically"]
    triggerImport := true }

def validKeys : List String :=
  ["theme", "scanlines", "autosave", "dateFormat", "crtEnabled", "glowIntensity",
   "soundEnabled"]

def handleConfig (argsStr : String) (s : Store) : Store × CommandResult :=
  let parts := splitWs (jsTrim argsStr)
  let key := (parts.head?).getD ""
  let value := interStr " " (parts.drop 1)
  if key = "" || key = "list" then
    (s, { output :=
        [ol .info "─── Configuration ───", ol .output ""] ++
        (getAllConfig s).map (fun kv =>
          ol .output ("  " ++ padEndSp kv.1 15 ++ " = " ++ kv.2)) ++
        [ol .output "", ol .dim "Usage: config <key> <value>",
         ol .dim "Example: config theme dracula", ol .output "",
         ol .success ("Available themes: " ++ interStr ", " AVAILABLE_THEMES)] })
  else if value = "" then
    let currentValue := getConfig key s
    (s, { output := [ol .output (key ++ " = " ++
        (if currentValue = "" then "(not set)" else currentValue))] })
  else if !(validKeys.contains (jsLower key)) then
    (s, { output := [ol .error ("Unknown config key: " ++ key),
                     ol .dim ("Valid keys: " ++ interStr ", " validKeys)] })
  else if key = "theme" && !(AVAILABLE_THEMES.contains value) then
    (s, { output := [ol .error ("Invalid theme: " ++ value),
                     ol .dim ("Available themes: " ++ interStr ", " AVAILABLE_THEMES)] })
  else if ["scanlines", "autosave", "crtEnabled", "soundEnabled"].contains key &&
      !(["true", "false"].contains value) then
    (s, { output := [ol .error ("Invalid value for " ++ key ++ ": " ++ value),
                     ol .dim "Use: true or false"] })
  else if key = "glowIntensity" &&
      (match parseFloatJS value with
       | none => true
       | some q => q < 0 || q > 1) then
    (s, { output := [ol .error ("Invalid value for " ++ key ++ ": " ++ value),
                     ol .dim "Use a number between 0 and 1"] })
  else
    (setConfig key value s,
     { output := [ol .success ("✓ " ++ key ++ " = " ++ value)] ++
        (if key = "theme" then
          [ol .dim "Theme updated. Changes apply immediately."] else []) })

/-- The `rename` argument regex `^(\d+)\s+(?:"([^"]+)"|'([^']+)'|(.+))$`:
digits, a run of whitespace, then a title in the shared
quoted/quoted/bare shape. -/
def matchRenameArgs (argsStr : String) : Option (Int × String) :=
  let cs := argsStr.toList
  let digits := cs.takeWhile Char.isDigit
  let rest0 := cs.drop digits.length
  if digits.isEmpty then none
  else
    match rest0 with
    | [] => none
    | r :: _ =>
      if !isJsSpace r then none
      else
        match matchTitleArg (String.mk (rest0.dropWhile isJsSpace)) with
        | none => none
        | some title =>
          some ((digits.foldl (fun acc c => acc * 10 + (c.toNat - '0'.toNat)) 0 : Nat),
            title)

def handleRename (argsStr : String) (s : Store) : Store × CommandResult :=
  match matchRenameArgs argsStr with
  | none =>
    (s, { output := [ol .error "Invalid format",
                     ol .dim "Usage: rename <id> \"new title\"",
                     ol .dim "Example: rename 1 \"Better Title\""] })
  | some (id, rawTitle) =>
    let newTitle := jsTrim rawTitle
    if newTitle = "" then
      (s, { output := [ol .error "Title cannot be empty"] })
    else
      match getNote id s with
      | some note =>
        if note.deleted then
          (s, { output := [ol .error ("Note #" ++ toString id ++ " not found")] })
        else
          (updateNoteTitle id newTitle s,
           { output := [ol .success ("✓ Note #" ++ toString id ++ " renamed"),
                        ol .dim ("  \"" ++ note.title ++ "\" → \"" ++ newTitle ++ "\"")] })
      | none => (s, { output := [ol .error ("Note #" ++ toString id ++ " not found")] })

def handlePurge (argsStr : String) (s : Store) : Store × CommandResult :=
  match parseIntJS argsStr with
  | none =>
    (s, { output := [ol .error "Missing note ID", ol .dim "Usage: purge <id>",
                     ol .dim "Tip: Use \"trash\" to see deleted notes"] })
  | some id =>
    match getNote id s with
    | none => (s, { output := [ol .error ("Note #" ++ toString id ++ " not found")] })
    | some note =>
      if !note.deleted then
        (s, { output := [ol .warning ("Note #" ++ toString id ++ " is not in trash"),
                         ol .dim "Delete it first with: delete <id>"] })
      else
        ((purgeNote id s).1,
         { output := [ol .warning ("✓ Note #" ++ toString id ++ " \"" ++ note.title ++
              "\" permanently deleted"),
            ol .dim "  This cannot be undone"] })

def handleStats (s : Store) : CommandResult :=
  let allNotes := listNotes s
  let deletedNotes := getRecentlyDeleted s
  let allTags := getAllTags s
  let totalWords := allNotes.foldl (fun sum note =>
    sum + (if jsTrim note.body = "" then 0 else (splitWs (jsTrim note.body)).length)) 0
  let totalChars := allNotes.foldl (fun sum note => sum + note.body.toList.length) 0
  let oldest := allNotes.foldl (fun m note => Nat.min m note.createdAt) s.now
  let daysSinceFirst := if allNotes.length > 0 then
    (s.now - oldest + (86400000 - 1)) / 86400000 else 0
  let mostRecent : Option Note :=
    match allNotes with
    | [] => none
    | n0 :: _ => some (allNotes.foldl (fun latest note =>
        if note.updatedAt > latest.updatedAt then note else latest) n0)
  { output :=
      [ol .info "╭───────────────────────────────────────────────╮",
       ol .info "│              GLYPH STATISTICS                 │",
       ol .info "╰───────────────────────────────────────────────╯",
       ol .output "", ol .success "NOTES",
       ol .output ("  Total notes      " ++ toString allNotes.length),
       ol .output ("  In trash         " ++ toString deletedNotes.length),
       ol .output ("  Total tags       " ++ toString allTags.length),
       ol .output "", ol .success "CONTENT",
       ol .output ("  Total words      " ++ groupDigits totalWords),
       ol .output ("  Total characters " ++ groupDigits totalChars),
       ol .output "", ol .success "ACTIVITY",
       ol .output ("  Days active      " ++ toString daysSinceFirst)] ++
      (match mostRecent with
       | some n => [ol .output ("  Last edited      " ++ formatDate n.updatedAt)]
       | none => []) ++
      [ol .output ""] ++
      (if allTags.length > 0 then
        [ol .success "TOP TAGS"] ++
        (allTags.take 5).map (fun tc =>
          ol .output ("  " ++ padEndSp tc.1 20 ++ " " ++ toString tc.2 ++ " note" ++
            (if tc.2 != 1 then "s" else "")))
      else []) }

def handlePin (argsStr : String) (s : Store) : Store × CommandResult :=
  match parseIntJS argsStr with
  | none => (s, { output := [ol .error "Invalid note ID"] })
  | some id =>
    -- the source calls togglePin(id) here and discards the result
    -- before checking whether the note exists or is already pinned
    let (s1, _) := togglePin id s
    match getNote id s1 with
    | none => (s1, { output := [ol .error ("Note #" ++ toString id ++ " not found")] })
    | some note =>
      if note.deleted then
        (s1, { output := [ol .error ("Note #" ++ toString id ++ " not found")] })
      else if note.pinned then
        (s1, { output := [ol .warning ("Note #" ++ toString id ++ " is already pinned")] })
      else
        ((togglePin id s1).1,
         { output := [ol .success ("✓ Pinned note #" ++ toString id)] })

def handleUnpin (argsStr : String) (s : Store) : Store × CommandResult :=
  match parseIntJS argsStr with
  | none => (s, { output := [ol .error "Invalid note ID"] })
  | some id =>
    match getNote id s with
    | none => (s, { output := [ol .error ("Note #" ++ toString id ++ " not found")] })
    | some note =>
      if note.deleted then
        (s, { output := [ol .error ("Note #" ++ toString id ++ " not found")] })
      else if !note.pinned then
        (s, { output := [ol .warning ("Note #" ++ toString id ++ " is not pinned")] })
      else
        ((togglePin id s).1,
         { output := [ol .success ("✓ Unpinned note #" ++ toString id)] })

/-- `handleGrep`: the empty-pattern and missing/empty-stdin errors
precede the `new RegExp(pattern, "i")` construction in the source, so
they hold for every pattern; the filtering branch goes through
`regexTestI`, faithful on `regexLiteral` patterns only. -/
def handleGrep (argsStr : String) (ctx : ShellContext) : CommandResult :=
  let pattern := jsTrim argsStr
  if pattern = "" then { output := [ol .error "Missing pattern"] }
  else
    match ctx.stdin with
    | none => { output := [ol .error "grep: no input provided (pipe only)"] }
    | some stdin =>
      if stdin.length == 0 then
        { output := [ol .error "grep: no input provided (pipe only)"] }
      else
        let filtered := stdin.filter (fun line => regexTestI pattern line)
        if filtered.length == 0 then { output := [] }
        else { output := filtered.map (fun line => ol .output line) }

/-! ### Dispatcher (`parseAndExecute`, commands.ts:1480) -/

/-- Outcome of the front matter of `parseAndExecute`: blank input,
over-length input, a line that fails the command-shape regex, or a
raw command token plus argument text. -/
inductive ParsedLine
  | blank
  | tooLong
  | invalid (trimmed : String)
  | parsed (command argsStr : String)
deriving DecidableEq

/-- Trim, length-check, and match `^([\w-]+)(?:\s+(.*))?$` (with `s`
flag, so the argument text may span lines). -/
def parseCommandLine (input : String) : ParsedLine :=
  let trimmed := jsTrim input
  if trimmed = "" then .blank
  else if trimmed.toList.length > 1000 then .tooLong
  else
    let cs := trimmed.toList
    let cmdChars := cs.takeWhile isWordChar
    let rest := cs.drop cmdChars.length
    if cmdChars.isEmpty then .invalid trimmed
    else
      match rest with
      | [] => .parsed (String.mk cmdChars) ""
      | r :: _ =>
        if isJsSpace r then
          .parsed (String.mk cmdChars) (String.mk (rest.dropWhile isJsSpace))
        else .invalid trimmed

def versionResult : CommandResult :=
  { output :=
      [ol .info ("\n  ________    __  ______  __  __ \n / ____/ /   / / / / __ \\/ / / / \n/ / __/ /   / /_/ / /_/ / /_/ /  \n/ /_/ / /___/ __  / ____/ __  /   \n\\____/_____/_/ /_/_/   /_/ /_/    v2.1.0\n"),
       ol .dim "Terminal-style note-taking • Local-first • Offline",
       ol .output "", ol .dim "Created by Aneesh V Rao"] }

/-- The `default` branch for an unknown command. -/
def unknownCommandResult (command : String) : CommandResult :=
  let suggestion := findSimilarCommand command
  { output :=
      [ol .error ("Unknown command: `" ++ command ++ "`")] ++
      (match suggestion with
       | some sug => [ol .info ("Did you mean: `" ++ sug ++ "`?")]
       | none => []) ++
      [ol .dim "Type \"help\" for available commands"] }

/-- The switch of `parseAndExecute` over the alias-resolved command.
Only the `cd` arm ever produces a `setCurrentPath` invocation
(`pathSet`). -/
def dispatchOn (command cmd argsStr : String) (ctx : ShellContext) (s : Store) : DispatchOut :=
  if cmd = "help" then ⟨s, none, showHelp (jsTrim argsStr)⟩
  else if cmd = "new" then
    ⟨(handleNew argsStr ctx s).1, none, (handleNew argsStr ctx s).2⟩
  else if cmd = "grep" then ⟨s, none, handleGrep argsStr ctx⟩
  else if cmd = "mkdir" then
    ⟨(handleMkdir argsStr ctx s).1, none, (handleMkdir argsStr ctx s).2⟩
  else if cmd = "cd" then
    ⟨s, (handleCd argsStr ctx s).1, (handleCd argsStr ctx s).2⟩
  else if cmd = "pwd" then ⟨s, none, { output := [ol .info ctx.pathString] }⟩
  else if cmd = "list" then ⟨s, none, handleList ctx s⟩
  else if cmd = "open" then ⟨s, none, handleOpen argsStr s⟩
  else if cmd = "edit" then ⟨s, none, handleEdit argsStr s⟩
  else if cmd = "delete" then
    ⟨(handleDelete argsStr s).1, none, (handleDelete argsStr s).2⟩
  else if cmd = "restore" then
    ⟨(handleRestore argsStr s).1, none, (handleRestore argsStr s).2⟩
  else if cmd = "trash" then ⟨s, none, handleTrash s⟩
  else if cmd = "rename" then
    ⟨(handleRename argsStr s).1, none, (handleRename argsStr s).2⟩
  else if cmd = "purge" then
    ⟨(handlePurge argsStr s).1, none, (handlePurge argsStr s).2⟩
  else if cmd = "search" then ⟨s, none, handleSearch argsStr s⟩
  else if cmd = "tags" then ⟨s, none, handleTags argsStr s⟩
  else if cmd = "today" then
    ⟨(handleToday s).1, none, (handleToday s).2⟩
  else if cmd = "export" then
    ⟨s, none, { output := [ol .success "Initiating export..."], triggerExport := true }⟩
  else if cmd = "import" then ⟨s, none, handleImport⟩
  else if cmd = "config" then
    ⟨(handleConfig argsStr s).1, none, (handleConfig argsStr s).2⟩
  else if cmd = "clear" then ⟨s, none, { output := [], shouldClear := true }⟩
  else if cmd = "pin" then
    ⟨(handlePin argsStr s).1, none, (handlePin argsStr s).2⟩
  else if cmd = "unpin" then
    ⟨(handleUnpin argsStr s).1, none, (handleUnpin argsStr s).2⟩
  else if cmd = "version" then ⟨s, none, versionResult⟩
  else if cmd = "stats" then ⟨s, none, handleStats s⟩
  else ⟨s, none, unknownCommandResult command⟩

/-- `const cmd = resolveAlias(command.toLowerCase())` followed by the
switch. -/
def dispatch (command argsStr : String) (ctx : ShellContext) (s : Store) : DispatchOut :=
  dispatchOn command (resolveAlias (jsLower command)) argsStr ctx s

/-- `parseAndExecute` (commands.ts:1480).  The surrounding
`try`/`catch` is dead in the model: every handler is total and the
only `throw`s reachable from the dispatcher are modelled inside the
handlers that catch them. -/
def parseAndExecute (input : String) (ctx : ShellContext) (s : Store) : DispatchOut :=
  match parseCommandLine input with
  | .blank => ⟨s, none, { output := [] }⟩
  | .tooLong =>
    ⟨s, none, { output := [ol .error "Input too long (max 1000 characters)"] }⟩
  | .invalid trimmed =>
    ⟨s, none, { output := [ol .error ("Invalid command format: " ++ trimmed)] }⟩
  | .parsed command argsStr => dispatch command argsStr ctx s

/-! ### Session / pipeline execution (src/hooks/useShell.ts) -/

structure Session where
  history : List String
  historyIndex : Int
  currentPath : Option Int
  pathString : String
  output : List OutputLine
deriving DecidableEq

def initialSession : Session :=
  { history := [], historyIndex := -1, currentPath := none, pathString := "~"
    output := [] }

/-- JS `arr.slice(-n)`: the last `n` elements. -/
def jsSliceLast (n : Nat) (l : List α) : List α := l.drop (l.length - n)

/-- `addToHistory` (useShell.ts:38): append and keep the last 100,
resetting the navigation cursor; all-whitespace commands are ignored. -/
def addToHistory (cmd : String) (sess : Session) : Session :=
  if jsTrim cmd ≠ "" then
    { sess with history := jsSliceLast 100 (sess.history ++ [cmd]), historyIndex := -1 }
  else sess

/-- Merge a stage's `setCurrentPath` call into the pending React state
update (the last call wins). -/
def mergePE (pending new : Option (Option Int)) : Option (Option Int) :=
  match new with
  | some p => some p
  | none => pending

/-- The pipeline loop of `execute` (useShell.ts:74-101).  Every stage's
context carries the `currentPath` captured when the submission started
(`setCurrentPath` is a React state setter, so calls made by earlier
stages are not visible to later stages of the same submission); a
stage whose output contains an `error` line ends the loop with that
stage's result. -/
def runStages (ctxPath : Option Int) (pathString : String) :
    Store → Option (Option Int) → Option (List String) → List String →
    Store × Option (Option Int) × CommandResult
  | s, pending, _, [] => (s, pending, { output := [] })  -- unreachable: split is non-empty
  | s, pending, stdin, [c] =>
    let d := parseAndExecute c ⟨ctxPath, pathString, stdin⟩ s
    (d.store, mergePE pending d.pathSet, d.result)
  | s, pending, stdin, c :: c2 :: rest =>
    let d := parseAndExecute c ⟨ctxPath, pathString, stdin⟩ s
    if hasError d.result then (d.store, mergePE pending d.pathSet, d.result)
    else
      runStages ctxPath pathString d.store (mergePE pending d.pathSet)
        (some (d.result.output.map (fun l => l.content))) (c2 :: rest)

/-- `execute` (useShell.ts:53): blank input is a complete no-op;
otherwise echo a prompt line, record history, split on `|` and run the
pipeline, then either clear or append the final stage's output.  The
`pathString` refresh performed by the `useEffect` on `currentPath` is
applied synchronously at the end. -/
def executeLine (cmdInput : String) (sess : Session) (s : Store) :
    Session × Store × Option CommandResult :=
  if jsTrim cmdInput = "" then (sess, s, none)
  else
    let promptLine : OutputLine :=
      ⟨.prompt, sess.pathString ++ " $ " ++ cmdInput, some s.now, none⟩
    let sess1 := addToHistory cmdInput { sess with output := sess.output ++ [promptLine] }
    let stages := runStages sess.currentPath sess.pathString s none none (splitOnChar '|' cmdInput)
    let s' := stages.1
    let pe := stages.2.1
    let finalResult := stages.2.2
    let newPath := match pe with | some p => p | none => sess.currentPath
    let newPathString :=
      match newPath with
      | none => "~"
      | some _ =>
        match getFolder newPath s' with
        | some f => "~/" ++ f.name
        | none => "?"
    ({ sess1 with
        currentPath := newPath
        pathString := newPathString
        output := if finalResult.shouldClear then [] else sess1.output ++ finalResult.output },
     s', some finalResult)

/-! ### Fixtures for concrete witnesses and counterexamples -/

def ctxRoot : ShellContext := ⟨none, "~", none⟩

/-- A live, unpinned root note whose title contains an `x`. -/
def noteA : Note :=
  { id := 1, title := "xylophone", body := "b", tags := ["work"], createdAt := 5
    updatedAt := 6, deleted := false, deletedAt := none, pinned := false
    parentId := none }

def storeA : Store :=
  { emptyStore with notes := [noteA], nextNoteId := 2, now := 100 }

/-- How many `error`-kind lines a result carries. -/
def countErrors (r : CommandResult) : Nat :=
  (r.output.filter (fun l => l.type == LineType.error)).length

/-! ### C1 — pin/unpin idempotence-ish behaviour -/

set_option maxRecDepth 40000 in
/-- C1 (code bug): the spec says the first `pin` on an unpinned note
yields one `success` line and the second a `warning`.  The code calls
`togglePin` *before* its existence/pinned check (an unused
`const result = await togglePin(id)` left above the checks that the
handler's own comments say should come first), so the first `pin` on
the live unpinned note #1 pins it **and** reports the warning
"already pinned", while the second `pin` un-pins and re-pins it,
reporting `success`: exactly the reverse of the claimed order.  The
`unpin` half of the claim does hold (warning, no error, state
unchanged), as the last two conjuncts record. -/
theorem C1_pin_first_warns_eval :
    (handlePin "1" storeA).2.output = [ol .warning "Note #1 is already pinned"] ∧
    ((handlePin "1" storeA).1.notes.map Note.pinned) = [true] ∧
    (handlePin "1" (handlePin "1" storeA).1).2.output = [ol .success "✓ Pinned note #1"] ∧
    (handleUnpin "1" storeA).2.output = [ol .warning "Note #1 is not pinned"] ∧
    (handleUnpin "1" storeA).1 = storeA := by
  decide

/-! ### C2 — the 1000-character input cap -/

/-- A submitted line of 1001 characters whose trimmed text is the
7-character command `new "A"`. -/
def overlongInput : String := "new \"A\"" ++ String.mk (List.replicate 994 ' ')

set_option maxRecDepth 200000 in
/-- C2 (counterexample): the claim says every submitted command line
longer than 1000 characters yields exactly one `error` line and no
store operation.  This 1001-character line (a `new` command padded
with trailing spaces) is executed: the result has zero error lines
and a note is created in the store. -/
theorem C2_counterexample :
    overlongInput.toList.length = 1001 ∧
    (executeLine overlongInput initialSession emptyStore).2.2.map countErrors = some 0 ∧
    (executeLine overlongInput initialSession emptyStore).2.1.notes.length = 1 ∧
    emptyStore.notes.length = 0 := by
  decide

/-- C2 (amended): the length cap is enforced per pipeline stage on the
*trimmed* stage text: any stage whose trimmed text exceeds 1000
characters is rejected before parsing with exactly one `error` line,
no store operation and no `setCurrentPath` call. -/
theorem C2_overlong_stage_rejected (stage : String) (ctx : ShellContext) (s : Store)
    (h : (jsTrim stage).toList.length > 1000) :
    parseAndExecute stage ctx s =
      ⟨s, none, { output := [ol .error "Input too long (max 1000 characters)"] }⟩ := by
  have hne : ¬(jsTrim stage = "") := by
    intro he
    rw [he] at h
    exact absurd h (by decide)
  unfold parseAndExecute parseCommandLine
  simp only [hne, if_false, h, if_true, gt_iff_lt, if_pos]

set_option maxRecDepth 200000 in
theorem C2_witness :
    ((jsTrim (String.mk (List.replicate 1001 'a'))).toList.length > 1000) ∧
    parseAndExecute (String.mk (List.replicate 1001 'a')) ctxRoot emptyStore =
      ⟨emptyStore, none,
       { output := [ol .error "Input too long (max 1000 characters)"] }⟩ :=
  ⟨by decide, C2_overlong_stage_rejected _ _ _ (by decide)⟩

/-! ### C3 — fail-fast pipelines -/

/-- C3: if a stage's dispatch yields any `error`-kind line, the
pipeline's value is that stage's result — the right-hand side does not
mention `rest`, so no later stage is dispatched and the store is left
as that stage left it; if the stage's output has no `error` line
(warnings included), the pipeline continues into the remaining stages
with the stage's output contents as stdin. -/
theorem C3_pipeline_short_circuit (ctxPath : Option Int) (ps : String) (s : Store)
    (pending : Option (Option Int)) (stdin : Option (List String))
    (c : String) (rest : List String) :
    (hasError (parseAndExecute c ⟨ctxPath, ps, stdin⟩ s).result = true →
      runStages ctxPath ps s pending stdin (c :: rest) =
        ((parseAndExecute c ⟨ctxPath, ps, stdin⟩ s).store,
         mergePE pending (parseAndExecute c ⟨ctxPath, ps, stdin⟩ s).pathSet,
         (parseAndExecute c ⟨ctxPath, ps, stdin⟩ s).result)) ∧
    (hasError (parseAndExecute c ⟨ctxPath, ps, stdin⟩ s).result = false → rest ≠ [] →
      runStages ctxPath ps s pending stdin (c :: rest) =
        runStages ctxPath ps (parseAndExecute c ⟨ctxPath, ps, stdin⟩ s).store
          (mergePE pending (parseAndExecute c ⟨ctxPath, ps, stdin⟩ s).pathSet)
          (some ((parseAndExecute c ⟨ctxPath, ps, stdin⟩ s).result.output.map
            (fun l => l.content)))
          rest) := by
  constructor
  · intro he
    cases rest with
    | nil => simp [runStages]
    | cons c2 r => simp [runStages, he]
  · intro he hne
    cases rest with
    | nil => exact absurd rfl hne
    | cons c2 r => simp [runStages, he]

set_option maxRecDepth 40000 in
theorem C3_witness :
    hasError (parseAndExecute "badcmd" ⟨none, "~", none⟩ emptyStore).result = true ∧
    runStages none "~" emptyStore none none ["badcmd", "list"] =
      ((parseAndExecute "badcmd" ⟨none, "~", none⟩ emptyStore).store,
       mergePE none (parseAndExecute "badcmd" ⟨none, "~", none⟩ emptyStore).pathSet,
       (parseAndExecute "badcmd" ⟨none, "~", none⟩ emptyStore).result) :=
  ⟨by decide,
   (C3_pipeline_short_circuit none "~" emptyStore none none "badcmd" ["list"]).1
     (by decide)⟩

/-! ### C5 — cd navigation -/

/-- C5: `cd` with an empty argument, `~` or `/` sets the current
directory to root; `..` is a no-op at root (no `setCurrentPath` call)
and otherwise moves to the current folder's parent; any other argument
enters the first case-insensitive match among the current directory's
child folders, and with no match produces an error naming the path
while leaving the current directory unchanged. -/
theorem C5_cd_navigation (args : String) (ctx : ShellContext) (s : Store) :
    ((jsTrim args = "" ∨ jsTrim args = "~" ∨ jsTrim args = "/") →
      handleCd args ctx s = (some none, { output := [] })) ∧
    (jsTrim args = ".." → ctx.currentPath = none →
      handleCd args ctx s = (none, { output := [] })) ∧
    (∀ cp f, jsTrim args = ".." → ctx.currentPath = some cp →
      getFolder (some cp) s = some f →
      handleCd args ctx s = (some f.parentId, { output := [] })) ∧
    (∀ target, (jsTrim args ≠ "" ∧ jsTrim args ≠ "~" ∧ jsTrim args ≠ "/" ∧
        jsTrim args ≠ "..") →
      (getFolderContents ctx.currentPath s).2.find?
        (fun f => jsLower f.name == jsLower (jsTrim args)) = some target →
      handleCd args ctx s = (some (some target.id), { output := [] })) ∧
    ((jsTrim args ≠ "" ∧ jsTrim args ≠ "~" ∧ jsTrim args ≠ "/" ∧ jsTrim args ≠ "..") →
      (getFolderContents ctx.currentPath s).2.find?
        (fun f => jsLower f.name == jsLower (jsTrim args)) = none →
      handleCd args ctx s =
        (none, { output := [ol .error ("cd: " ++ jsTrim args ++ ": No such directory")] })) := by
  refine ⟨?_, ?_, ?_, ?_, ?_⟩
  · intro h
    rcases h with h | h | h <;> simp [handleCd, h]
  · intro h hcp
    simp [handleCd, h, hcp]
  · intro cp f h hcp hf
    simp [handleCd, h, hcp, hf]
  · intro target h hfind
    obtain ⟨h1, h2, h3, h4⟩ := h
    simp [handleCd, h1, h2, h3, h4, hfind]
  · intro h hfind
    obtain ⟨h1, h2, h3, h4⟩ := h
    simp [handleCd, h1, h2, h3, h4, hfind]

/-- A one-folder store used by the cd and list witnesses. -/
def folderP : Folder := { id := 7, name := "Projects", parentId := none, createdAt := 1 }

def storeF : Store :=
  { emptyStore with folders := [folderP], nextFolderId := 8, now := 50 }

set_option maxRecDepth 40000 in
theorem C5_witness :
    handleCd " ~ " ctxRoot storeF = (some none, { output := [] }) ∧
    handleCd ".." ctxRoot storeF = (none, { output := [] }) ∧
    handleCd ".." ⟨some 7, "~/Projects", none⟩ storeF = (some none, { output := [] }) ∧
    handleCd "projects" ctxRoot storeF = (some (some 7), { output := [] }) ∧
    handleCd "nonexistent" ctxRoot storeF =
      (none, { output := [ol .error "cd: nonexistent: No such directory"] }) := by
  refine ⟨?_, ?_, ?_, ?_, ?_⟩
  · exact (C5_cd_navigation " ~ " ctxRoot storeF).1 (by decide)
  · exact (C5_cd_navigation ".." ctxRoot storeF).2.1 (by decide) (by decide)
  · exact (C5_cd_navigation ".." ⟨some 7, "~/Projects", none⟩ storeF).2.2.1 7 folderP
      (by decide) (by decide) (by decide)
  · exact (C5_cd_navigation "projects" ctxRoot storeF).2.2.2.1 folderP
      (by decide) (by decide)
  · exact (C5_cd_navigation "nonexistent" ctxRoot storeF).2.2.2.2
      (by decide) (by decide)

/-! ### C10 — numeric-looking open arguments never fall back to title search -/

/-- C10: whenever the leading characters of the argument parse as an
integer (JS `parseInt`), `open` performs only the id lookup: if no
live note has that id, the whole result is the single not-found error
line — in particular a note whose title begins with digits cannot be
opened by its title. -/
theorem C10_open_numeric_no_title_fallback (args : String) (s : Store) (i : Int)
    (hp : parseIntJS args = some i)
    (hn : getNote i s = none ∨ (getNote i s).map Note.deleted = some true) :
    handleOpen args s =
      { output := [ol .error ("Note #" ++ toString i ++ " not found")] } := by
  rcases hn with hn | hn
  · simp [handleOpen, hp, hn]
  · cases hg : getNote i s with
    | none => simp [handleOpen, hp, hg]
    | some n =>
      rw [hg] at hn
      have hd : n.deleted = true := by simpa using hn
      simp [handleOpen, hp, hg, hd]

/-- A live note whose title starts with digits. -/
def noteTwelve : Note :=
  { id := 1, title := "12 monkeys", body := "", tags := [], createdAt := 1
    updatedAt := 1, deleted := false, deletedAt := none, pinned := false
    parentId := none }

def storeTwelve : Store :=
  { emptyStore with notes := [noteTwelve], nextNoteId := 2, now := 9 }

set_option maxRecDepth 40000 in
theorem C10_witness :
    parseIntJS "12 monkeys" = some 12 ∧
    getNote 12 storeTwelve = none ∧
    handleOpen "12 monkeys" storeTwelve =
      { output := [ol .error ("Note #" ++ toString (12 : Int) ++ " not found")] } :=
  ⟨by decide, by decide,
   C10_open_numeric_no_title_fallback "12 monkeys" storeTwelve 12 (by decide)
     (Or.inl (by decide))⟩

/-! ### C6 — soft-delete round trip -/

/-- Updating by id rewrites exactly the found record when the patch
preserves ids. -/
lemma find?_map_update (l : List Note) (i : Int) (n : Note) (patch : Note → Note)
    (hid : ∀ m, (patch m).id = m.id)
    (h : l.find? (fun x => x.id == i) = some n) :
    (l.map (fun x => if x.id == i then patch x else x)).find? (fun x => x.id == i) =
      some (patch n) := by
  induction l with
  | nil => simp at h
  | cons a t ih =>
    by_cases ha : (a.id == i) = true
    · simp only [List.find?_cons, ha] at h
      obtain rfl : a = n := by injection h
      have hpa : ((patch a).id == i) = true := by rw [hid]; exact ha
      rw [List.map_cons, if_pos ha, List.find?_cons, hpa]
    · simp only [List.find?_cons, ha] at h
      have ha' : (a.id == i) = false := by simpa using ha
      rw [List.map_cons, if_neg ha, List.find?_cons, ha']
      exact ih h

lemma getNote_updateNotes (i : Int) (patch : Note → Note) (s : Store) (n : Note)
    (hid : ∀ m, (patch m).id = m.id)
    (h : getNote i s = some n) :
    getNote i (updateNotes i patch s) = some (patch n) :=
  find?_map_update s.notes i n patch hid h

/-- C6: for a live note `n` with id `i`, running the `delete` handler
then the `restore` handler on the same id returns the stored record to
a non-deleted state with title, body and tags exactly as before (only
`deletedAt` is cleared and `updatedAt` is refreshed). -/
theorem C6_delete_restore_round_trip (args : String) (s : Store) (i : Int) (n : Note)
    (hp : parseIntJS args = some i)
    (hn : getNote i s = some n)
    (hd : n.deleted = false) :
    getNote i ((handleRestore args (handleDelete args s).1).1) =
      some { n with deleted := false, deletedAt := none, updatedAt := s.now } := by
  have hid1 : ∀ m : Note,
      ({ m with deleted := true, deletedAt := some s.now, updatedAt := s.now } : Note).id
        = m.id := fun _ => rfl
  -- the store after deleteNote
  have hdel : deleteNote i s =
      (updateNotes i
        (fun nt => { nt with deleted := true, deletedAt := some s.now, updatedAt := s.now })
        { s with
            recentlyDeleted := s.recentlyDeleted ++
              [{ id := s.nextDeletedId, noteId := i, title := n.title, body := n.body
                 tags := n.tags, createdAt := n.createdAt, updatedAt := n.updatedAt
                 deletedAt := s.now }]
            nextDeletedId := s.nextDeletedId + 1 },
       true,
       some { id := s.nextDeletedId, noteId := i, title := n.title, body := n.body
              tags := n.tags, createdAt := n.createdAt, updatedAt := n.updatedAt
              deletedAt := s.now }) := by
    simp [deleteNote, hn, hd]
  have hDel1 : (handleDelete args s).1 = (deleteNote i s).1 := by
    simp [handleDelete, hp, hdel]
  set sd := (deleteNote i s).1 with hsd
  have hnotesd : getNote i sd =
      some { n with deleted := true, deletedAt := some s.now, updatedAt := s.now } := by
    rw [hsd, hdel]
    exact getNote_updateNotes i _ _ n hid1 hn
  have hnowd : sd.now = s.now := by rw [hsd, hdel]; rfl
  -- the store after undoDelete
  have hres : getNote i ((undoDelete i sd).1) =
      some { n with deleted := false, deletedAt := none, updatedAt := s.now } ∧
      (undoDelete i sd).2 = true := by
    have hid2 : ∀ m : Note,
        ({ m with deleted := false, deletedAt := none, updatedAt := sd.now } : Note).id
          = m.id := fun _ => rfl
    constructor
    · simp only [undoDelete, hnotesd]
      simp only [Bool.not_true, Bool.false_eq_true, if_false]
      have := getNote_updateNotes i
        (fun nt => { nt with deleted := false, deletedAt := none, updatedAt := sd.now })
        { sd with recentlyDeleted := sd.recentlyDeleted.filter (fun dn => !(dn.noteId == i)) }
        { n with deleted := true, deletedAt := some s.now, updatedAt := s.now }
        hid2 hnotesd
      rw [this, hnowd]
    · simp [undoDelete, hnotesd]
  rw [hDel1]
  have hrest1 : (handleRestore args sd).1 = (undoDelete i sd).1 := by
    simp [handleRestore, hp, hres.2]
  rw [hrest1]
  exact hres.1

/-- A live note and store for the C6 witness. -/
def noteR : Note :=
  { id := 3, title := "keep", body := "text", tags := ["t1", "t2"], createdAt := 10
    updatedAt := 11, deleted := false, deletedAt := none, pinned := false
    parentId := none }

def storeR : Store :=
  { emptyStore with notes := [noteR], nextNoteId := 4, now := 42 }

set_option maxRecDepth 40000 in
theorem C6_witness :
    parseIntJS "3" = some 3 ∧
    getNote 3 storeR = some noteR ∧
    noteR.deleted = false ∧
    getNote 3 ((handleRestore "3" (handleDelete "3" storeR).1).1) =
      some { noteR with deleted := false, deletedAt := none, updatedAt := storeR.now } :=
  ⟨by decide, by decide, by decide,
   C6_delete_restore_round_trip "3" storeR 3 noteR (by decide) (by decide) (by decide)⟩

/-! ### C7 — bounded command history -/

/-- One submission step of the session: run the line and keep the new
session and store. -/
def executeStep (st : Session × Store) (c : String) : Session × Store :=
  ((executeLine c st.1 st.2).1, (executeLine c st.1 st.2).2.1)

lemma jsSliceLast_length_le (n : Nat) (l : List α) : (jsSliceLast n l).length ≤ n := by
  simp [jsSliceLast]
  omega

lemma jsSliceLast_of_le {n : Nat} {l : List α} (h : l.length ≤ n) :
    jsSliceLast n l = l := by
  simp [jsSliceLast, Nat.sub_eq_zero_of_le h]

lemma sliceLast_append_sliceLast (n : Nat) (l rest : List α) :
    jsSliceLast n (jsSliceLast n l ++ rest) = jsSliceLast n (l ++ rest) := by
  by_cases hl : l.length ≤ n
  · rw [jsSliceLast_of_le hl]
  · push_neg at hl
    unfold jsSliceLast
    rw [List.drop_append_eq_append_drop, List.drop_append_eq_append_drop]
    have hA : (l.drop (l.length - n)).length = n := by simp; omega
    rw [List.drop_drop]
    congr 2 <;> simp [hA] <;> omega

lemma executeLine_history (c : String) (sess : Session) (s : Store)
    (h : jsTrim c ≠ "") :
    (executeLine c sess s).1.history = jsSliceLast 100 (sess.history ++ [c]) := by
  simp [executeLine, h, addToHistory]

lemma foldl_executeStep_history (cmds : List String) :
    ∀ (st : Session × Store), (∀ c ∈ cmds, jsTrim c ≠ "") →
      st.1.history.length ≤ 100 →
      (cmds.foldl executeStep st).1.history = jsSliceLast 100 (st.1.history ++ cmds) := by
  induction cmds with
  | nil =>
    intro st _ hlen
    simp [jsSliceLast_of_le hlen]
  | cons c rest ih =>
    intro st hnb hlen
    have hc : jsTrim c ≠ "" := hnb c (by simp)
    have hrest : ∀ x ∈ rest, jsTrim x ≠ "" := fun x hx => hnb x (by simp [hx])
    simp only [List.foldl_cons]
    have hstep : (executeStep st c).1.history = jsSliceLast 100 (st.1.history ++ [c]) :=
      executeLine_history c st.1 st.2 hc
    rw [ih (executeStep st c) hrest (by rw [hstep]; exact jsSliceLast_length_le _ _)]
    rw [hstep, sliceLast_append_sliceLast]
    simp

/-- C7: command history is a bounded buffer of (at most) the last 100
submissions: after 150 distinct non-blank submissions (from a fresh
session, over any starting store) the history is exactly the last 100
lines in submission order — the oldest 50 are evicted; and a blank
(all-whitespace) submission is a complete no-op: no prompt echo, no
history entry, no result. -/
theorem C7_history_bound :
    (∀ (cmds : List String) (s0 : Store), cmds.length = 150 → cmds.Nodup →
      (∀ c ∈ cmds, jsTrim c ≠ "") →
      (cmds.foldl executeStep (initialSession, s0)).1.history = cmds.drop 50) ∧
    (∀ (c : String) (sess : Session) (s : Store), jsTrim c = "" →
      executeLine c sess s = (sess, s, none)) := by
  constructor
  · intro cmds s0 hlen _ hnb
    rw [foldl_executeStep_history cmds (initialSession, s0) hnb (by simp [initialSession])]
    simp [initialSession, jsSliceLast, hlen]
  · intro c sess s h
    simp [executeLine, h]

def cmds150 : List String := (List.range 150).map (fun i => "c" ++ toString i)

set_option maxRecDepth 1000000 in
theorem C7_witness :
    (cmds150.length = 150 ∧ cmds150.Nodup ∧ (∀ c ∈ cmds150, jsTrim c ≠ "") ∧
      (cmds150.foldl executeStep (initialSession, emptyStore)).1.history =
        cmds150.drop 50) ∧
    (jsTrim "   " = "" ∧
      executeLine "   " initialSession emptyStore = (initialSession, emptyStore, none)) :=
  ⟨⟨by decide, by decide, by decide,
    C7_history_bound.1 cmds150 emptyStore (by decide) (by decide) (by decide)⟩,
   ⟨by decide, C7_history_bound.2 "   " initialSession emptyStore (by decide)⟩⟩

/-! ### C9 — only cd touches the current-directory pointer -/

/-- The alias-resolved command a submitted line dispatches to, if it
reaches the dispatcher at all. -/
def resolvedCmdOf (input : String) : Option String :=
  match parseCommandLine input with
  | .parsed command _ => some (resolveAlias (jsLower command))
  | _ => none

lemma handleCd_cases (args : String) (ctx : ShellContext) (s : Store) :
    (handleCd args ctx s).2.output = [] ∨ (handleCd args ctx s).1 = none := by
  simp only [handleCd]
  split_ifs with h1 h2
  · left; rfl
  · split
    · left; rfl
    · split
      · left; rfl
      · left; rfl
  · split
    · left; rfl
    · right; rfl

lemma handleCd_set_implies_silent (args : String) (ctx : ShellContext) (s : Store)
    (h : (handleCd args ctx s).1 ≠ none) :
    (handleCd args ctx s).2.output = [] := by
  rcases handleCd_cases args ctx s with hout | hnone
  · exact hout
  · exact absurd hnone h

set_option maxHeartbeats 4000000 in
/-- Only the `cd` arm of the dispatcher carries a `setCurrentPath`
invocation; every other arm's `pathSet` is literally `none`. -/
lemma dispatchOn_pathSet (command cmd argsStr : String) (ctx : ShellContext) (s : Store) :
    (dispatchOn command cmd argsStr ctx s).pathSet = none ∨
    (cmd = "cd" ∧
     (dispatchOn command cmd argsStr ctx s).pathSet = (handleCd argsStr ctx s).1 ∧
     (dispatchOn command cmd argsStr ctx s).result = (handleCd argsStr ctx s).2) := by
  unfold dispatchOn
  by_cases e1 : cmd = "help"
  · rw [if_pos e1]; left; rfl
  · rw [if_neg e1]
    by_cases e2 : cmd = "new"
    · rw [if_pos e2]; left; rfl
    · rw [if_neg e2]
      by_cases e3 : cmd = "grep"
      · rw [if_pos e3]; left; rfl
      · rw [if_neg e3]
        by_cases e4 : cmd = "mkdir"
        · rw [if_pos e4]; left; rfl
        · rw [if_neg e4]
          by_cases e5 : cmd = "cd"
          · rw [if_pos e5]; right; exact ⟨e5, rfl, rfl⟩
          · rw [if_neg e5]
            by_cases e6 : cmd = "pwd"
            · rw [if_pos e6]; left; rfl
            · rw [if_neg e6]
              by_cases e7 : cmd = "list"
              · rw [if_pos e7]; left; rfl
              · rw [if_neg e7]
                by_cases e8 : cmd = "open"
                · rw [if_pos e8]; left; rfl
                · rw [if_neg e8]
                  by_cases e9 : cmd = "edit"
                  · rw [if_pos e9]; left; rfl
                  · rw [if_neg e9]
                    by_cases e10 : cmd = "delete"
                    · rw [if_pos e10]; left; rfl
                    · rw [if_neg e10]
                      by_cases e11 : cmd = "restore"
                      · rw [if_pos e11]; left; rfl
                      · rw [if_neg e11]
                        by_cases e12 : cmd = "trash"
                        · rw [if_pos e12]; left; rfl
                        · rw [if_neg e12]
                          by_cases e13 : cmd = "rename"
                          · rw [if_pos e13]; left; rfl
                          · rw [if_neg e13]
                            by_cases e14 : cmd = "purge"
                            · rw [if_pos e14]; left; rfl
                            · rw [if_neg e14]
                              by_cases e15 : cmd = "search"
                              · rw [if_pos e15]; left; rfl
                              · rw [if_neg e15]
                                by_cases e16 : cmd = "tags"
                                · rw [if_pos e16]; left; rfl
                                · rw [if_neg e16]
                                  by_cases e17 : cmd = "today"
                                  · rw [if_pos e17]; left; rfl
                                  · rw [if_neg e17]
                                    by_cases e18 : cmd = "export"
                                    · rw [if_pos e18]; left; rfl
                                    · rw [if_neg e18]
                                      by_cases e19 : cmd = "import"
                                      · rw [if_pos e19]; left; rfl
                                      · rw [if_neg e19]
                                        by_cases e20 : cmd = "config"
                                        · rw [if_pos e20]; left; rfl
                                        · rw [if_neg e20]
                                          by_cases e21 : cmd = "clear"
                                          · rw [if_pos e21]; left; rfl
                                          · rw [if_neg e21]
                                            by_cases e22 : cmd = "pin"
                                            · rw [if_pos e22]; left; rfl
                                            · rw [if_neg e22]
                                              by_cases e23 : cmd = "unpin"
                                              · rw [if_pos e23]; left; rfl
                                              · rw [if_neg e23]
                                                by_cases e24 : cmd = "version"
                                                · rw [if_pos e24]; left; rfl
                                                · rw [if_neg e24]
                                                  by_cases e25 : cmd = "stats"
                                                  · rw [if_pos e25]; left; rfl
                                                  · rw [if_neg e25]
                                                    left; rfl

lemma dispatch_pathSet (command argsStr : String) (ctx : ShellContext) (s : Store) :
    (dispatch command argsStr ctx s).pathSet = none ∨
    (resolveAlias (jsLower command) = "cd" ∧
     (dispatch command argsStr ctx s).pathSet = (handleCd argsStr ctx s).1 ∧
     (dispatch command argsStr ctx s).result = (handleCd argsStr ctx s).2) :=
  dispatchOn_pathSet command (resolveAlias (jsLower command)) argsStr ctx s

/-- C9 (frame property): whenever a dispatch invokes `setCurrentPath`
at all, the dispatched command is `cd` and the result is a silent
success (empty output, hence no error line).  Every other command —
including every error path — leaves the current-directory pointer
untouched, and `cd`'s own no-match error path performs no
`setCurrentPath` call either. -/
theorem C9_only_cd_sets_path (input : String) (ctx : ShellContext) (s : Store)
    (h : (parseAndExecute input ctx s).pathSet ≠ none) :
    resolvedCmdOf input = some "cd" ∧ (parseAndExecute input ctx s).result.output = [] := by
  cases hq : parseCommandLine input with
  | blank => simp [parseAndExecute, hq] at h
  | tooLong => simp [parseAndExecute, hq] at h
  | invalid t => simp [parseAndExecute, hq] at h
  | parsed command args =>
    simp only [parseAndExecute, hq] at h ⊢
    rcases dispatch_pathSet command args ctx s with hnone | ⟨hcd, hps, hres⟩
    · exact absurd hnone h
    · refine ⟨?_, ?_⟩
      · simp [resolvedCmdOf, hq, hcd]
      · rw [hres]
        apply handleCd_set_implies_silent
        rw [← hps]
        exact h

theorem C9_witness :
    (parseAndExecute "cd" ctxRoot emptyStore).pathSet ≠ none ∧
    resolvedCmdOf "cd" = some "cd" ∧
    (parseAndExecute "cd" ctxRoot emptyStore).result.output = [] :=
  ⟨by decide,
   (C9_only_cd_sets_path "cd" ctxRoot emptyStore (by decide)).1,
   (C9_only_cd_sets_path "cd" ctxRoot emptyStore (by decide)).2⟩

/-! ### C8 — the command-suggestion algorithm -/

/-- Minimum of a list of naturals (`none` for the empty list). -/
def natsMin : List Nat → Option Nat
  | [] => none
  | x :: xs =>
    match natsMin xs with
    | none => some x
    | some m => some (min x m)

lemma natsMin_eq_none {l : List Nat} : natsMin l = none ↔ l = [] := by
  cases l with
  | nil => simp [natsMin]
  | cons x xs =>
    simp only [natsMin]
    cases natsMin xs <;> simp

lemma natsMin_eq_some_iff {l : List Nat} {m : Nat} :
    natsMin l = some m ↔ m ∈ l ∧ ∀ x ∈ l, m ≤ x := by
  induction l generalizing m with
  | nil => simp [natsMin]
  | cons x xs ih =>
    cases hxs : natsMin xs with
    | none =>
      have hnil : xs = [] := natsMin_eq_none.mp hxs
      subst hnil
      constructor
      · intro h
        obtain rfl : x = m := by injection h
        refine ⟨List.mem_cons_self x [], ?_⟩
        intro y hy
        rcases List.mem_cons.mp hy with rfl | hy
        · exact le_refl _
        · simp at hy
      · rintro ⟨h1, h2⟩
        rcases List.mem_cons.mp h1 with rfl | h1
        · rfl
        · simp at h1
    | some mk =>
      obtain ⟨hmem, hle⟩ := ih.mp hxs
      simp only [natsMin, hxs]
      constructor
      · intro h
        have hminm : min x mk = m := by injection h
        rcases Nat.le_total x mk with hx | hx
        · obtain rfl : m = x := by omega
          refine ⟨List.mem_cons_self _ _, ?_⟩
          intro y hy
          rcases List.mem_cons.mp hy with rfl | hy
          · exact le_refl _
          · have := hle y hy; omega
        · obtain rfl : m = mk := by omega
          refine ⟨List.mem_cons_of_mem x hmem, ?_⟩
          intro y hy
          rcases List.mem_cons.mp hy with rfl | hy
          · omega
          · exact hle y hy
      · rintro ⟨h1, h2⟩
        have hmx : m ≤ x := h2 x (List.mem_cons_self x xs)
        have hmmk : m ≤ mk := h2 mk (List.mem_cons_of_mem x hmem)
        have hlow : min x mk ≤ m := by
          rcases List.mem_cons.mp h1 with rfl | h1
          · omega
          · have := hle m h1; omega
        have heq : min x mk = m := by omega
        rw [heq]

/-- The distances of the candidates that beat the current best score
and pass the ≤ 2 threshold. -/
def candDs (t : String) (bs : Option Nat) (cs : List String) : List Nat :=
  (cs.map (fun c => simpleDist c t)).filter (fun d => ltInfB d bs && d ≤ 2)

/-- A first-affix-match / first-attained-minimum description of the
tail of the suggestion scan, given the accumulator state. -/
def specCont (t : String) (cs : List String) (bs : Option Nat) (bm : String) :
    Option String :=
  match cs.find? (fun c => isAffix t c) with
  | some c => some c
  | none =>
    match natsMin (candDs t bs cs) with
    | some m => cs.find? (fun c => simpleDist c t == m)
    | none => if bm = "" then none else some bm

lemma isAffix_empty (t : String) : isAffix t "" = true := by
  simp [isAffix, jsStartsWith, leadsChars]

lemma specCont_of_find?_none (t : String) (cs : List String) (bs : Option Nat)
    (bm : String) (h : cs.find? (fun c => isAffix t c) = none) :
    specCont t cs bs bm =
      match natsMin (candDs t bs cs) with
      | some m => cs.find? (fun c => simpleDist c t == m)
      | none => if bm = "" then none else some bm := by
  unfold specCont
  rw [h]

lemma simLoop_eq_specCont (t : String) :
    ∀ (cs : List String) (bs : Option Nat) (bm : String),
      simLoop t cs bs bm = specCont t cs bs bm := by
  intro cs
  induction cs with
  | nil => intro bs bm; rfl
  | cons c cs ih =>
    intro bs bm
    by_cases haff : isAffix t c = true
    · simp [simLoop, specCont, List.find?_cons, haff]
    · have haff' : isAffix t c = false := by simpa using haff
      have hcne : c ≠ "" := by
        intro hc
        rw [hc, isAffix_empty] at haff'
        exact Bool.true_eq_false.mp haff'
      have hfcons : (c :: cs).find? (fun x => isAffix t x) =
          cs.find? (fun x => isAffix t x) := by
        simp [List.find?_cons, haff']
      by_cases himp : (ltInfB (simpleDist c t) bs && decide (simpleDist c t ≤ 2)) = true
      · -- the candidate improves on the best score
        have hstep : simLoop t (c :: cs) bs bm =
            simLoop t cs (some (simpleDist c t)) c := by
          simp [simLoop, haff', himp]
        rw [hstep, ih]
        cases hfa : cs.find? (fun x => isAffix t x) with
        | some c' =>
          unfold specCont
          rw [hfa, hfcons.trans hfa]
        | none =>
          rw [specCont_of_find?_none t cs _ c hfa,
            specCont_of_find?_none t (c :: cs) bs bm (hfcons.trans hfa)]
          have hKcons : candDs t bs (c :: cs) = simpleDist c t :: candDs t bs cs := by
            simp only [candDs, List.map_cons, List.filter_cons, himp, if_true]
          have hK' : candDs t (some (simpleDist c t)) cs =
              (candDs t bs cs).filter (fun e => decide (e < simpleDist c t)) := by
            simp only [candDs, List.filter_filter]
            apply List.filter_congr
            intro e _
            have himp2 := himp
            rw [Bool.and_eq_true] at himp2
            obtain ⟨hlt, hle2⟩ := himp2
            cases bs with
            | none =>
              by_cases h1 : e < simpleDist c t <;>
                simp [ltInfB, h1, Bool.and_comm, Bool.and_left_comm, Bool.and_assoc]
            | some b =>
              have hdb : simpleDist c t < b := by simpa [ltInfB] using hlt
              by_cases h1 : e < simpleDist c t
              · have h2 : e < b := lt_trans h1 hdb
                simp [ltInfB, h1, h2, Bool.and_comm, Bool.and_left_comm, Bool.and_assoc]
              · simp [ltInfB, h1]
          rw [hK', hKcons]
          cases hm' : natsMin ((candDs t bs cs).filter
              (fun e => decide (e < simpleDist c t))) with
          | some m' =>
            obtain ⟨hmem', hle'⟩ := natsMin_eq_some_iff.mp hm'
            have hmemK : m' ∈ candDs t bs cs := (List.mem_filter.mp hmem').1
            have hm'lt : m' < simpleDist c t := by
              have := (List.mem_filter.mp hmem').2
              simpa using this
            have hLmin : natsMin (simpleDist c t :: candDs t bs cs) = some m' := by
              apply natsMin_eq_some_iff.mpr
              refine ⟨List.mem_cons_of_mem _ hmemK, ?_⟩
              intro x hx
              rcases List.mem_cons.mp hx with rfl | hx
              · exact le_of_lt hm'lt
              · by_cases hxd : x < simpleDist c t
                · exact hle' x (List.mem_filter.mpr ⟨hx, by simpa using hxd⟩)
                · omega
            have hne : (simpleDist c t == m') = false := by
              have : simpleDist c t ≠ m' := by omega
              simpa using this
            simp only [hLmin, List.find?_cons, hne]
          | none =>
            have hnone : ∀ e ∈ candDs t bs cs, ¬(e < simpleDist c t) := by
              have hnil := natsMin_eq_none.mp hm'
              intro e he hlt
              have hmem2 : e ∈ (candDs t bs cs).filter
                  (fun e => decide (e < simpleDist c t)) :=
                List.mem_filter.mpr ⟨he, by simpa using hlt⟩
              rw [hnil] at hmem2
              simp at hmem2
            have hLmin : natsMin (simpleDist c t :: candDs t bs cs) =
                some (simpleDist c t) := by
              apply natsMin_eq_some_iff.mpr
              refine ⟨List.mem_cons_self _ _, ?_⟩
              intro x hx
              rcases List.mem_cons.mp hx with rfl | hx
              · exact le_refl _
              · exact le_of_not_lt (hnone x hx)
            have heq : (simpleDist c t == simpleDist c t) = true := by simp
            simp only [hLmin, List.find?_cons, heq]
            simp [hcne]
      · -- the candidate is skipped
        have himp' : (ltInfB (simpleDist c t) bs && decide (simpleDist c t ≤ 2)) = false := by
          simpa using himp
        have hstep : simLoop t (c :: cs) bs bm = simLoop t cs bs bm := by
          simp [simLoop, haff', himp']
        rw [hstep, ih]
        cases hfa : cs.find? (fun x => isAffix t x) with
        | some c' =>
          unfold specCont
          rw [hfa, hfcons.trans hfa]
        | none =>
          rw [specCont_of_find?_none t cs bs bm hfa,
            specCont_of_find?_none t (c :: cs) bs bm (hfcons.trans hfa)]
          have hKcons : candDs t bs (c :: cs) = candDs t bs cs := by
            simp only [candDs, List.map_cons, List.filter_cons, himp',
              Bool.false_eq_true, if_false]
          rw [hKcons]
          cases hm : natsMin (candDs t bs cs) with
          | none => rfl
          | some m =>
            obtain ⟨hmem, _⟩ := natsMin_eq_some_iff.mp hm
            have hpred : (ltInfB m bs && decide (m ≤ 2)) = true := by
              have hmem2 : m ∈ (cs.map (fun c => simpleDist c t)).filter
                  (fun d => ltInfB d bs && decide (d ≤ 2)) := by
                simpa [candDs] using hmem
              exact (List.mem_filter.mp hmem2).2
            have hne : (simpleDist c t == m) = false := by
              have : simpleDist c t ≠ m := by
                intro hdm
                rw [hdm, hpred] at himp'
                exact Bool.true_eq_false.mp himp'
              simpa using this
            simp only [List.find?_cons, hne]

lemma natsMin_filter_le2 (l : List Nat) :
    natsMin (l.filter (fun d => decide (d ≤ 2))) =
      match natsMin l with
      | none => none
      | some m => if m ≤ 2 then some m else none := by
  cases hm : natsMin l with
  | none =>
    have hnil : l = [] := natsMin_eq_none.mp hm
    subst hnil
    rfl
  | some m =>
    obtain ⟨hmem, hle⟩ := natsMin_eq_some_iff.mp hm
    show natsMin (l.filter (fun d => decide (d ≤ 2))) =
      if m ≤ 2 then some m else none
    by_cases h2 : m ≤ 2
    · rw [if_pos h2]
      apply natsMin_eq_some_iff.mpr
      refine ⟨List.mem_filter.mpr ⟨hmem, by simpa using h2⟩, ?_⟩
      intro x hx
      exact hle x (List.mem_filter.mp hx).1
    · rw [if_neg h2]
      have hnil : l.filter (fun d => decide (d ≤ 2)) = [] := by
        rw [List.filter_eq_nil_iff]
        intro a ha
        simp only [decide_eq_true_eq]
        intro ha2
        exact h2 (le_trans (hle a ha) ha2)
      rw [hnil]
      rfl

/-- The suggestion function exactly as the specification words it: an
alias owner for the lowercased token; otherwise the first command in
registry order containing the token as a prefix in either direction;
otherwise the candidate minimizing `positional mismatches + length
difference`, provided that minimum is at most 2, with ties broken by
registry iteration order (first found); otherwise no suggestion. -/
def suggestSpec (token : String) : Option String :=
  let t := jsLower token
  match COMMAND_DEFINITIONS.find? (fun e => e.2.aliases.contains t) with
  | some e => some e.1
  | none =>
    match commandNames.find? (fun c => isAffix t c) with
    | some c => some c
    | none =>
      match natsMin (commandNames.map (fun c => simpleDist c t)) with
      | none => none
      | some m =>
        if m ≤ 2 then commandNames.find? (fun c => simpleDist c t == m) else none

/-- C8: `findSimilarCommand` computes exactly the suggestion the
specification describes: an alias containing the lowercased token
wins; otherwise the first command in registry order with prefix
containment in either direction; otherwise the candidate with the
least simplified distance provided it is at most 2, ties broken by
registry order; otherwise no suggestion. -/
theorem C8_suggestion_algorithm (input : String) :
    findSimilarCommand input = suggestSpec input := by
  unfold findSimilarCommand suggestSpec
  cases hal : COMMAND_DEFINITIONS.find?
      (fun e => e.2.aliases.contains (jsLower input)) with
  | some e => simp only [hal]
  | none =>
    simp only [hal]
    rw [simLoop_eq_specCont]
    cases haf : commandNames.find? (fun c => isAffix (jsLower input) c) with
    | some c =>
      unfold specCont
      rw [haf]
    | none =>
      rw [specCont_of_find?_none _ _ _ _ haf]
      have hcand : candDs (jsLower input) none commandNames =
          (commandNames.map (fun c => simpleDist c (jsLower input))).filter
            (fun d => decide (d ≤ 2)) := by
        apply List.filter_congr
        intro e _
        simp [ltInfB]
      rw [hcand, natsMin_filter_le2]
      cases hnm : natsMin (commandNames.map
          (fun c => simpleDist c (jsLower input))) with
      | none => rfl
      | some m =>
        by_cases h2 : m ≤ 2
        · simp [h2]
        · simp [h2]

/-! ### C4 — grep filtering -/

/-- With piped input and a non-empty pattern, `grep` re-emits exactly
the stdin lines the case-insensitive pattern matches, in their
original order, as plain output lines. -/
lemma handleGrep_filter (args : String) (cp : Option Int) (ps : String)
    (stdin : List String) (hpat : jsTrim args ≠ "") (hst : stdin ≠ []) :
    handleGrep args ⟨cp, ps, some stdin⟩ =
      { output := (stdin.filter (fun line => regexTestI (jsTrim args) line)).map
          (fun line => ol .output line) } := by
  unfold handleGrep
  rw [if_neg hpat]
  have hlen : (stdin.length == 0) = false := by
    simp only [beq_eq_false_iff_ne, ne_eq, List.length_eq_zero]
    exact hst
  simp only [hlen, Bool.false_eq_true, if_false]
  by_cases hf : ((stdin.filter (fun line => regexTestI (jsTrim args) line)).length == 0)
      = true
  · have hnil : stdin.filter (fun line => regexTestI (jsTrim args) line) = [] := by
      simpa using hf
    simp [hf, hnil]
  · have hf' : ((stdin.filter (fun line => regexTestI (jsTrim args) line)).length == 0)
        = false := by simpa using hf
    simp [hf']

lemma handleList_no_error (ctx : ShellContext) (s : Store) :
    hasError (handleList ctx s) = false := by
  unfold handleList hasError
  by_cases h : ((getFolderContents ctx.currentPath s).1.length == 0 &&
      (getFolderContents ctx.currentPath s).2.length == 0) = true
  · simp [h, ol]
  · simp only [h, Bool.false_eq_true, if_false]
    simp [List.any_append, List.any_map, Function.comp, olA, ol]

lemma handleList_output_ne_nil (ctx : ShellContext) (s : Store) :
    (handleList ctx s).output ≠ [] := by
  unfold handleList
  by_cases h : ((getFolderContents ctx.currentPath s).1.length == 0 &&
      (getFolderContents ctx.currentPath s).2.length == 0) = true
  · simp [h]
  · simp only [h, Bool.false_eq_true, if_false]
    simp

set_option maxRecDepth 40000 in
/-- C4 (counterexample): on a store whose only note is titled
"xylophone", the documented pipeline `list | grep "x"` emits nothing,
although the listing does contain a line matching `x`
case-insensitively: `grep` does not strip the surrounding quotes, so
the pattern is the three-character string `"x"`. -/
theorem C4_counterexample :
    regexLiteral "\"x\"" = true ∧
    (runStages none "~" storeA none none (splitOnChar '|' "list | grep \"x\"")).2.2.output
        = [] ∧
    ((handleList ctxRoot storeA).output.filter
        (fun l => regexTestI "x" l.content)) ≠ [] := by
  decide

/-- C4 (amended): `grep` run with no piped stdin, with empty piped
stdin, or with an empty (trimmed) pattern produces an error line —
these checks precede the regex construction, so they hold for every
pattern.  With non-empty stdin and a non-empty pattern free of regex
metacharacters (a regex literal — the pattern then matches verbatim),
the output is exactly the stdin lines containing the trimmed argument
text case-insensitively, in their original order.  The quotes of a
quoted pattern are part of the pattern (the source never strips
them), so it is the unquoted `list | grep x` that emits exactly the
listing lines containing `x` in listing order — the third conjunct,
stated at pipeline level.  Patterns with metacharacters follow full
JS regex semantics (an invalid one raising a SyntaxError that the
dispatcher catches into an error line) and are outside this
formalization. -/
theorem C4_grep_filters :
    (∀ (args : String) (ctx : ShellContext),
      (ctx.stdin = none ∨ ctx.stdin = some [] ∨ jsTrim args = "") →
      hasError (handleGrep args ctx) = true) ∧
    (∀ (args : String) (cp : Option Int) (ps : String) (stdin : List String),
      jsTrim args ≠ "" → regexLiteral (jsTrim args) = true → stdin ≠ [] →
      handleGrep args ⟨cp, ps, some stdin⟩ =
        { output := (stdin.filter (fun line => regexTestI (jsTrim args) line)).map
            (fun line => ol .output line) }) ∧
    (∀ (s : Store) (cp : Option Int) (ps : String) (stage1 args1 stage2 p : String),
      parseCommandLine stage1 = ParsedLine.parsed "list" args1 →
      parseCommandLine stage2 = ParsedLine.parsed "grep" p →
      jsTrim p ≠ "" → regexLiteral (jsTrim p) = true →
      (runStages cp ps s none none [stage1, stage2]).2.2.output =
        (((handleList ⟨cp, ps, none⟩ s).output.map (fun l => l.content)).filter
            (fun line => regexTestI (jsTrim p) line)).map
          (fun line => ol .output line)) := by
  refine ⟨?_, ?_, ?_⟩
  · intro args ctx h
    unfold handleGrep
    by_cases hpat : jsTrim args = ""
    · simp [hpat, hasError, ol]
    · rcases h with h | h | h
      · rw [if_neg hpat, h]
        simp [hasError, ol]
      · rw [if_neg hpat, h]
        simp [hasError, ol]
      · exact absurd h hpat
  · intro args cp ps stdin hpat _ hst
    exact handleGrep_filter args cp ps stdin hpat hst
  · intro s cp ps stage1 args1 stage2 p h1 h2 h3 _
    have hd1 : parseAndExecute stage1 ⟨cp, ps, none⟩ s =
        ⟨s, none, handleList ⟨cp, ps, none⟩ s⟩ := by
      simp only [parseAndExecute, h1]
      rfl
    have hcont : (handleList ⟨cp, ps, none⟩ s).output.map (fun l => l.content) ≠ [] := by
      simp only [ne_eq, List.map_eq_nil_iff]
      exact handleList_output_ne_nil _ _
    have hd2 : parseAndExecute stage2
        ⟨cp, ps, some ((handleList ⟨cp, ps, none⟩ s).output.map (fun l => l.content))⟩ s =
        ⟨s, none, handleGrep p
          ⟨cp, ps, some ((handleList ⟨cp, ps, none⟩ s).output.map (fun l => l.content))⟩⟩ := by
      simp only [parseAndExecute, h2]
      rfl
    have hne := handleList_no_error ⟨cp, ps, none⟩ s
    simp only [runStages, hd1, hne, Bool.false_eq_true, if_false, mergePE, hd2,
      handleGrep_filter p cp ps _ h3 hcont]


set_option maxRecDepth 40000 in
theorem C4_witness :
    hasError (handleGrep "x" ⟨none, "~", none⟩) = true ∧
    handleGrep " x " ⟨none, "~", some ["Axe", "bo", "XY"]⟩ =
      { output := (["Axe", "bo", "XY"].filter
          (fun line => regexTestI (jsTrim " x ") line)).map
            (fun line => ol .output line) } ∧
    (runStages none "~" storeA none none ["list ", " grep x"]).2.2.output =
      (((handleList ⟨none, "~", none⟩ storeA).output.map (fun l => l.content)).filter
          (fun line => regexTestI (jsTrim "x") line)).map
        (fun line => ol .output line) :=
  ⟨C4_grep_filters.1 "x" ⟨none, "~", none⟩ (by decide),
   C4_grep_filters.2.1 " x " none "~" ["Axe", "bo", "XY"] (by decide) (by decide)
     (by decide),
   C4_grep_filters.2.2 storeA none "~" "list " "" " grep x" "x" (by decide) (by decide)
     (by decide) (by decide)⟩

end Glyph
